import Mathlib

/-!
Hierarchical page-table translation.

A shallow embedding of `Hierarchical_Pagetable_Translation.c`: the one-level
walker `walkOneLevel` and the three-level translator `linearToPhys`.

* `uint32_t` values are natural numbers; every operation that can leave the
  32-bit range in C (`<<`, `+`, `*`) is reduced modulo `2 ^ 32` explicitly.
* `readPhys` is only declared in the source; it is a parameter
  `readPhys : Nat → Nat` of both functions.
* The out-parameters `*nextEntry`, `*flag` and `*physAddr` are passed in with
  their initial value and returned with their final value.
* Every call of `readPhys` is recorded, in order, in the field `reads`.
-/

namespace PageTable

/-! ## Constants of the source -/

def LEAF_BIT : Nat := 4
def PL1_INDEX_START : Nat := 12
def PL2_INDEX_START : Nat := 22
def NUM_PAGE_INDEX_BITS : Nat := 12
def NUM_PL1_INDEX_BITS : Nat := 10
def NUM_PL2_INDEX_BITS : Nat := 10

/-- The modulus of `uint32_t` arithmetic. -/
def UINT32_MOD : Nat := 2 ^ 32

/-- The C enumeration `enum access`. -/
inductive access where
  | ACCESS_READ
  | ACCESS_WRITE
  | ACCESS_EXECUTE
  deriving DecidableEq, Repr

/-- The integer value of an `enum access` constant. -/
def access.val : access → Nat
  | .ACCESS_READ => 1
  | .ACCESS_WRITE => 2
  | .ACCESS_EXECUTE => 3

/-- The C enumeration `enum fault`. -/
inductive fault where
  | FAULT_NONE
  | FAULT_NOT_PRESENT
  | FAULT_MALFORMED
  | FAULT_VIOLATION
  deriving DecidableEq, Repr

/-- The integer value of an `enum fault` constant. -/
def fault.val : fault → Nat
  | .FAULT_NONE => 0
  | .FAULT_NOT_PRESENT => 1
  | .FAULT_MALFORMED => 2
  | .FAULT_VIOLATION => 3

/-- What one call of `walkOneLevel` leaves behind: the returned fault, the
final contents of `*nextEntry` and `*flag`, and the addresses passed to
`readPhys`, in call order. -/
structure WalkResult where
  ret : fault
  nextEntry : Nat
  flag : Int
  reads : List Nat
  deriving DecidableEq, Repr

/-- What one call of `linearToPhys` leaves behind: the returned fault, the
final contents of `*physAddr`, and the addresses passed to `readPhys`, in call
order. -/
structure TransResult where
  ret : fault
  physAddr : Nat
  reads : List Nat
  deriving DecidableEq, Repr

/-- The function `walkOneLevel` of the source. `nextEntry` and `flag` are the
contents of `*nextEntry` and `*flag` on entry. -/
def walkOneLevel (readPhys : Nat → Nat) (entry nextEntry index level : Nat)
    (_acc : access) (flag : Int) : WalkResult :=
  if entry &&& 1 = 0 then
    { ret := fault.FAULT_NOT_PRESENT, nextEntry := nextEntry, flag := flag, reads := [] }
  else if (entry >>> LEAF_BIT) &&& 1 ≠ 0 then
    if level = 3 then
      if entry >>> 12 ≠ 0 then
        { ret := fault.FAULT_MALFORMED, nextEntry := nextEntry, flag := flag, reads := [] }
      else
        { ret := fault.FAULT_NONE, nextEntry := nextEntry, flag := 1, reads := [] }
    else if level = 2 then
      if ((entry <<< 10) % UINT32_MOD) >>> 22 ≠ 0 then
        { ret := fault.FAULT_MALFORMED, nextEntry := nextEntry, flag := flag, reads := [] }
      else
        { ret := fault.FAULT_NONE, nextEntry := nextEntry, flag := 1, reads := [] }
    else if level = 1 then
      let ppn := entry >>> 12
      let base_addr := (ppn <<< 12) % UINT32_MOD
      { ret := fault.FAULT_NONE, nextEntry := (base_addr + index) % UINT32_MOD,
        flag := flag, reads := [] }
    else
      { ret := fault.FAULT_NONE, nextEntry := nextEntry, flag := flag, reads := [] }
  else
    let ppn := entry >>> 12
    let base_addr := (ppn <<< 12) % UINT32_MOD
    let offset := (index * 4) % UINT32_MOD
    let addr := (base_addr + offset) % UINT32_MOD
    { ret := fault.FAULT_NONE, nextEntry := readPhys addr, flag := flag, reads := [addr] }

/-- The function `linearToPhys` of the source. `physAddr` is the content of
`*physAddr` on entry. -/
def linearToPhys (readPhys : Nat → Nat) (pl3e linearAddr : Nat) (acc : access)
    (physAddr : Nat) : TransResult :=
  let page_index := ((1 <<< NUM_PAGE_INDEX_BITS) - 1) &&& linearAddr
  let pl1_index := ((1 <<< NUM_PL1_INDEX_BITS) - 1) &&& (linearAddr >>> PL1_INDEX_START)
  let pl2_index := ((1 <<< NUM_PL2_INDEX_BITS) - 1) &&& (linearAddr >>> PL2_INDEX_START)
  let w3 := walkOneLevel readPhys pl3e 0 pl2_index 3 acc 0
  if w3.ret ≠ fault.FAULT_NONE then
    { ret := w3.ret, physAddr := physAddr, reads := w3.reads }
  else if w3.flag = 1 then
    { ret := fault.FAULT_NONE, physAddr := linearAddr, reads := w3.reads }
  else
    let pl2e := w3.nextEntry
    let w2 := walkOneLevel readPhys pl2e 0 pl1_index 2 acc 0
    if w2.ret ≠ fault.FAULT_NONE then
      { ret := w2.ret, physAddr := physAddr, reads := w3.reads ++ w2.reads }
    else if w2.flag = 1 then
      { ret := fault.FAULT_NONE,
        physAddr := (((pl2e >>> PL2_INDEX_START) <<< PL2_INDEX_START) % UINT32_MOD)
                      ||| (((linearAddr <<< 10) % UINT32_MOD) >>> 10),
        reads := w3.reads ++ w2.reads }
    else
      let pl1e := w2.nextEntry
      let w1 := walkOneLevel readPhys pl1e 0 page_index 1 acc 0
      if w1.ret ≠ fault.FAULT_NONE then
        { ret := w1.ret, physAddr := physAddr, reads := w3.reads ++ w2.reads ++ w1.reads }
      else if (pl3e >>> acc.val) &&& 1 = 0 ∨ (pl2e >>> acc.val) &&& 1 = 0
          ∨ (pl1e >>> acc.val) &&& 1 = 0 then
        { ret := fault.FAULT_VIOLATION, physAddr := physAddr,
          reads := w3.reads ++ w2.reads ++ w1.reads }
      else
        { ret := fault.FAULT_NONE, physAddr := w1.nextEntry,
          reads := w3.reads ++ w2.reads ++ w1.reads }

/-! ## Bit-level facts -/

theorem and_one_eq_zero_iff (e : Nat) : e &&& 1 = 0 ↔ e.testBit 0 = false := by
  rw [Nat.and_one_is_mod, Nat.mod_two_eq_zero_iff_testBit_zero]

theorem shiftRight_and_one_eq_zero_iff (e n : Nat) :
    (e >>> n) &&& 1 = 0 ↔ e.testBit n = false := by
  rw [Nat.and_one_is_mod, Nat.mod_two_eq_zero_iff_testBit_zero, Nat.testBit_shiftRight]
  simp

/-- Masking with a run of `m` ones that starts at bit `k` keeps the bits
`k .. k+m-1` in place. -/
theorem and_shifted_mask (e m k : Nat) :
    e &&& ((2 ^ m - 1) <<< k) = ((e >>> k) % 2 ^ m) <<< k := by
  apply Nat.eq_of_testBit_eq
  intro i
  simp only [Nat.testBit_and, Nat.testBit_shiftLeft, Nat.testBit_two_pow_sub_one,
    Nat.testBit_mod_two_pow, Nat.testBit_shiftRight]
  by_cases hk : k ≤ i
  · have : k + (i - k) = i := by omega
    by_cases hm : i - k < m <;> simp [hk, hm, this]
  · simp [hk]

theorem and_FFFFF000 (e : Nat) : e &&& 0xFFFFF000 = e / 4096 % 1048576 * 4096 := by
  have h := and_shifted_mask e 20 12
  simpa [Nat.shiftLeft_eq, Nat.shiftRight_eq_div_pow] using h

theorem and_FFC00000 (e : Nat) : e &&& 0xFFC00000 = e / 4194304 % 1024 * 4194304 := by
  have h := and_shifted_mask e 10 22
  simpa [Nat.shiftLeft_eq, Nat.shiftRight_eq_div_pow] using h

theorem and_003FF000 (e : Nat) : e &&& 0x003FF000 = e / 4096 % 1024 * 4096 := by
  have h := and_shifted_mask e 10 12
  simpa [Nat.shiftLeft_eq, Nat.shiftRight_eq_div_pow] using h

theorem and_FFF (e : Nat) : e &&& 0xFFF = e % 4096 :=
  Nat.and_pow_two_sub_one_eq_mod e 12

theorem and_3FF (e : Nat) : e &&& 0x3FF = e % 1024 :=
  Nat.and_pow_two_sub_one_eq_mod e 10

theorem and_3FFFFF (e : Nat) : e &&& 0x3FFFFF = e % 4194304 :=
  Nat.and_pow_two_sub_one_eq_mod e 22

theorem testBit_eq_false_iff (e n : Nat) : e.testBit n = false ↔ e / 2 ^ n % 2 = 0 := by
  rw [Nat.testBit_to_div_mod]
  simp

theorem testBit_eq_true_iff (e n : Nat) : e.testBit n = true ↔ e / 2 ^ n % 2 = 1 := by
  rw [Nat.testBit_to_div_mod]; simp

/-! ## The branches of `walkOneLevel` -/

theorem walk_notPresent (mem : Nat → Nat) (entry nextEntry index level : Nat)
    (acc : access) (flag : Int) (hp : entry.testBit 0 = false) :
    walkOneLevel mem entry nextEntry index level acc flag
      = ⟨fault.FAULT_NOT_PRESENT, nextEntry, flag, []⟩ := by
  have h : entry &&& 1 = 0 := (and_one_eq_zero_iff entry).2 hp
  simp [walkOneLevel, h]

theorem walk_nonLeaf (mem : Nat → Nat) (entry nextEntry index level : Nat)
    (acc : access) (flag : Int) (hp : entry.testBit 0 = true) (hl : entry.testBit 4 = false) :
    walkOneLevel mem entry nextEntry index level acc flag
      = ⟨fault.FAULT_NONE,
          mem ((((entry >>> 12) <<< 12) % 2 ^ 32 + (index * 4) % 2 ^ 32) % 2 ^ 32), flag,
          [(((entry >>> 12) <<< 12) % 2 ^ 32 + (index * 4) % 2 ^ 32) % 2 ^ 32]⟩ := by
  have h0 : ¬ entry &&& 1 = 0 := by
    rw [and_one_eq_zero_iff]; simp [hp]
  have h4 : (entry >>> LEAF_BIT) &&& 1 = 0 := (shiftRight_and_one_eq_zero_iff entry 4).2 hl
  simp only [walkOneLevel, if_neg h0, h4, ne_eq, not_true_eq_false, if_false, UINT32_MOD]

theorem walk_leaf3 (mem : Nat → Nat) (entry nextEntry index : Nat)
    (acc : access) (flag : Int) (hp : entry.testBit 0 = true) (hl : entry.testBit 4 = true) :
    walkOneLevel mem entry nextEntry index 3 acc flag
      = if entry >>> 12 ≠ 0 then ⟨fault.FAULT_MALFORMED, nextEntry, flag, []⟩
        else ⟨fault.FAULT_NONE, nextEntry, 1, []⟩ := by
  have h0 : ¬ entry &&& 1 = 0 := by
    rw [and_one_eq_zero_iff]; simp [hp]
  have h4 : (entry >>> LEAF_BIT) &&& 1 ≠ 0 := by
    show ¬ (entry >>> 4) &&& 1 = 0
    rw [shiftRight_and_one_eq_zero_iff entry 4]; simp [hl]
  simp only [walkOneLevel, if_neg h0, if_pos h4, if_true]

theorem walk_leaf2 (mem : Nat → Nat) (entry nextEntry index : Nat)
    (acc : access) (flag : Int) (hp : entry.testBit 0 = true) (hl : entry.testBit 4 = true) :
    walkOneLevel mem entry nextEntry index 2 acc flag
      = if ((entry <<< 10) % 2 ^ 32) >>> 22 ≠ 0 then ⟨fault.FAULT_MALFORMED, nextEntry, flag, []⟩
        else ⟨fault.FAULT_NONE, nextEntry, 1, []⟩ := by
  have h0 : ¬ entry &&& 1 = 0 := by
    rw [and_one_eq_zero_iff]; simp [hp]
  have h4 : (entry >>> LEAF_BIT) &&& 1 ≠ 0 := by
    show ¬ (entry >>> 4) &&& 1 = 0
    rw [shiftRight_and_one_eq_zero_iff entry 4]; simp [hl]
  have h23 : ¬ (2 : Nat) = 3 := by decide
  simp only [walkOneLevel, if_neg h0, if_pos h4, if_neg h23, if_true, UINT32_MOD]

theorem walk_leaf1 (mem : Nat → Nat) (entry nextEntry index : Nat)
    (acc : access) (flag : Int) (hp : entry.testBit 0 = true) (hl : entry.testBit 4 = true) :
    walkOneLevel mem entry nextEntry index 1 acc flag
      = ⟨fault.FAULT_NONE, (((entry >>> 12) <<< 12) % 2 ^ 32 + index) % 2 ^ 32, flag, []⟩ := by
  have h0 : ¬ entry &&& 1 = 0 := by
    rw [and_one_eq_zero_iff]; simp [hp]
  have h4 : (entry >>> LEAF_BIT) &&& 1 ≠ 0 := by
    show ¬ (entry >>> 4) &&& 1 = 0
    rw [shiftRight_and_one_eq_zero_iff entry 4]; simp [hl]
  have h13 : ¬ (1 : Nat) = 3 := by decide
  have h12 : ¬ (1 : Nat) = 2 := by decide
  simp only [walkOneLevel, if_neg h0, if_pos h4, if_neg h13, if_neg h12, if_true, UINT32_MOD]

/-- Bits 12-21 of a 32-bit entry, as the level-2 leaf test computes them. -/
theorem shl10_shr22 (e : Nat) : ((e <<< 10) % 2 ^ 32) >>> 22 = e / 4096 % 1024 := by
  simp only [Nat.shiftLeft_eq, Nat.shiftRight_eq_div_pow]
  omega

/-- The address of a table read, for a 10-bit index: the sum does not wrap. -/
theorem table_addr (e idx : Nat) (hi : idx < 1024) :
    (((e >>> 12) <<< 12) % 2 ^ 32 + (idx * 4) % 2 ^ 32) % 2 ^ 32
      = (e &&& 0xFFFFF000) + 4 * idx := by
  rw [and_FFFFF000]
  simp only [Nat.shiftLeft_eq, Nat.shiftRight_eq_div_pow]
  omega

/-! ## Index decoding in `linearToPhys` -/

theorem page_index_eq (la : Nat) : ((1 <<< NUM_PAGE_INDEX_BITS) - 1) &&& la = la &&& 0xFFF := by
  rw [Nat.and_comm]; rfl

theorem pl1_index_eq (la : Nat) :
    ((1 <<< NUM_PL1_INDEX_BITS) - 1) &&& (la >>> PL1_INDEX_START) = (la >>> 12) &&& 0x3FF := by
  rw [Nat.and_comm]; rfl

theorem pl2_index_eq (la : Nat) (hla : la < 2 ^ 32) :
    ((1 <<< NUM_PL2_INDEX_BITS) - 1) &&& (la >>> PL2_INDEX_START) = la >>> 22 := by
  rw [Nat.and_comm]
  show (la >>> 22) &&& 0x3FF = la >>> 22
  rw [and_3FF, Nat.shiftRight_eq_div_pow]
  omega

theorem pl1_index_lt (la : Nat) : (la >>> 12) &&& 0x3FF < 1024 := by
  rw [and_3FF]; omega

theorem pl2_index_lt (la : Nat) (hla : la < 2 ^ 32) : la >>> 22 < 1024 := by
  rw [Nat.shiftRight_eq_div_pow]; omega

theorem perm_bit_iff (e n : Nat) : (e >>> n) &&& 1 = 0 ↔ ¬ e.testBit n = true := by
  rw [shiftRight_and_one_eq_zero_iff]; simp

/-! ## The paths of `linearToPhys` -/

theorem linearToPhys_root_notPresent (mem : Nat → Nat) (pl3e la : Nat) (acc : access)
    (pa : Nat) (hp3 : pl3e.testBit 0 = false) :
    linearToPhys mem pl3e la acc pa = ⟨fault.FAULT_NOT_PRESENT, pa, []⟩ := by
  simp [linearToPhys, walk_notPresent mem pl3e _ _ _ _ _ hp3]

theorem linearToPhys_root_leaf (mem : Nat → Nat) (pl3e la : Nat) (acc : access)
    (pa : Nat) (hp3 : pl3e.testBit 0 = true) (hl3 : pl3e.testBit 4 = true) :
    linearToPhys mem pl3e la acc pa
      = if pl3e >>> 12 ≠ 0 then ⟨fault.FAULT_MALFORMED, pa, []⟩
        else ⟨fault.FAULT_NONE, la, []⟩ := by
  simp only [linearToPhys, walk_leaf3 mem pl3e _ _ _ _ hp3 hl3]
  by_cases h : pl3e >>> 12 = 0 <;> simp [h]

/-- The level-3 step on a present non-leaf root entry of a 32-bit linear
address: one read, at the root table slot selected by bits 22-31. -/
theorem walk_root_nonLeaf (mem : Nat → Nat) (pl3e la : Nat) (acc : access)
    (hla : la < 2 ^ 32) (hp3 : pl3e.testBit 0 = true) (hl3 : pl3e.testBit 4 = false) :
    walkOneLevel mem pl3e 0
        (((1 <<< NUM_PL2_INDEX_BITS) - 1) &&& (la >>> PL2_INDEX_START)) 3 acc 0
      = ⟨fault.FAULT_NONE, mem ((pl3e &&& 0xFFFFF000) + 4 * (la >>> 22)), 0,
          [(pl3e &&& 0xFFFFF000) + 4 * (la >>> 22)]⟩ := by
  rw [walk_nonLeaf mem pl3e _ _ _ _ _ hp3 hl3, pl2_index_eq la hla,
    table_addr pl3e _ (pl2_index_lt la hla)]

/-- The level-2 step on a present non-leaf entry: one read, at the table slot
selected by bits 12-21. -/
theorem walk_mid_nonLeaf (mem : Nat → Nat) (pl2e la : Nat) (acc : access)
    (hp2 : pl2e.testBit 0 = true) (hl2 : pl2e.testBit 4 = false) :
    walkOneLevel mem pl2e 0
        (((1 <<< NUM_PL1_INDEX_BITS) - 1) &&& (la >>> PL1_INDEX_START)) 2 acc 0
      = ⟨fault.FAULT_NONE, mem ((pl2e &&& 0xFFFFF000) + 4 * ((la >>> 12) &&& 0x3FF)), 0,
          [(pl2e &&& 0xFFFFF000) + 4 * ((la >>> 12) &&& 0x3FF)]⟩ := by
  rw [walk_nonLeaf mem pl2e _ _ _ _ _ hp2 hl2, pl1_index_eq la,
    table_addr pl2e _ (pl1_index_lt la)]

theorem linearToPhys_mid_notPresent (mem : Nat → Nat) (pl3e la : Nat) (acc : access)
    (pa : Nat) (hla : la < 2 ^ 32) (hp3 : pl3e.testBit 0 = true) (hl3 : pl3e.testBit 4 = false)
    (hp2 : (mem ((pl3e &&& 0xFFFFF000) + 4 * (la >>> 22))).testBit 0 = false) :
    linearToPhys mem pl3e la acc pa
      = ⟨fault.FAULT_NOT_PRESENT, pa, [(pl3e &&& 0xFFFFF000) + 4 * (la >>> 22)]⟩ := by
  simp only [linearToPhys]
  rw [walk_root_nonLeaf mem pl3e la acc hla hp3 hl3]
  simp [walk_notPresent mem _ _ _ _ _ _ hp2]

theorem linearToPhys_mid_leaf (mem : Nat → Nat) (pl3e la : Nat) (acc : access)
    (pa : Nat) (hla : la < 2 ^ 32) (hp3 : pl3e.testBit 0 = true) (hl3 : pl3e.testBit 4 = false)
    (hp2 : (mem ((pl3e &&& 0xFFFFF000) + 4 * (la >>> 22))).testBit 0 = true)
    (hl2 : (mem ((pl3e &&& 0xFFFFF000) + 4 * (la >>> 22))).testBit 4 = true) :
    linearToPhys mem pl3e la acc pa
      = if (((mem ((pl3e &&& 0xFFFFF000) + 4 * (la >>> 22))) <<< 10) % 2 ^ 32) >>> 22 ≠ 0 then
          ⟨fault.FAULT_MALFORMED, pa, [(pl3e &&& 0xFFFFF000) + 4 * (la >>> 22)]⟩
        else
          ⟨fault.FAULT_NONE,
            ((((mem ((pl3e &&& 0xFFFFF000) + 4 * (la >>> 22))) >>> 22) <<< 22) % 2 ^ 32)
              ||| (((la <<< 10) % 2 ^ 32) >>> 10),
            [(pl3e &&& 0xFFFFF000) + 4 * (la >>> 22)]⟩ := by
  simp only [linearToPhys]
  rw [walk_root_nonLeaf mem pl3e la acc hla hp3 hl3]
  simp only [walk_leaf2 mem _ _ _ _ _ hp2 hl2]
  by_cases h : (((mem ((pl3e &&& 0xFFFFF000) + 4 * (la >>> 22))) <<< 10) % 2 ^ 32) >>> 22 = 0
  · simp only [h, ne_eq, not_true_eq_false, if_false, if_true, List.append_nil,
      PL2_INDEX_START, UINT32_MOD]
    rfl
  · simp only [h, ne_eq, not_false_eq_true, if_true, List.append_nil]
    rfl

/-- The walk through two present non-leaf entries: what remains is the level-1
step on the entry fetched at level 2, followed by the permission check. -/
theorem linearToPhys_level1 (mem : Nat → Nat) (pl3e la : Nat) (acc : access)
    (pa pl2e pl1e : Nat) (hla : la < 2 ^ 32)
    (h2 : pl2e = mem ((pl3e &&& 0xFFFFF000) + 4 * (la >>> 22)))
    (h1 : pl1e = mem ((pl2e &&& 0xFFFFF000) + 4 * ((la >>> 12) &&& 0x3FF)))
    (hp3 : pl3e.testBit 0 = true) (hl3 : pl3e.testBit 4 = false)
    (hp2 : pl2e.testBit 0 = true) (hl2 : pl2e.testBit 4 = false) :
    linearToPhys mem pl3e la acc pa
      = if (walkOneLevel mem pl1e 0 (la &&& 0xFFF) 1 acc 0).ret ≠ fault.FAULT_NONE then
          ⟨(walkOneLevel mem pl1e 0 (la &&& 0xFFF) 1 acc 0).ret, pa,
            [(pl3e &&& 0xFFFFF000) + 4 * (la >>> 22),
              (pl2e &&& 0xFFFFF000) + 4 * ((la >>> 12) &&& 0x3FF)]
              ++ (walkOneLevel mem pl1e 0 (la &&& 0xFFF) 1 acc 0).reads⟩
        else if ¬ pl3e.testBit acc.val = true ∨ ¬ pl2e.testBit acc.val = true
            ∨ ¬ pl1e.testBit acc.val = true then
          ⟨fault.FAULT_VIOLATION, pa,
            [(pl3e &&& 0xFFFFF000) + 4 * (la >>> 22),
              (pl2e &&& 0xFFFFF000) + 4 * ((la >>> 12) &&& 0x3FF)]
              ++ (walkOneLevel mem pl1e 0 (la &&& 0xFFF) 1 acc 0).reads⟩
        else
          ⟨fault.FAULT_NONE, (walkOneLevel mem pl1e 0 (la &&& 0xFFF) 1 acc 0).nextEntry,
            [(pl3e &&& 0xFFFFF000) + 4 * (la >>> 22),
              (pl2e &&& 0xFFFFF000) + 4 * ((la >>> 12) &&& 0x3FF)]
              ++ (walkOneLevel mem pl1e 0 (la &&& 0xFFF) 1 acc 0).reads⟩ := by
  simp only [linearToPhys]
  rw [walk_root_nonLeaf mem pl3e la acc hla hp3 hl3]
  simp only [← h2]
  rw [walk_mid_nonLeaf mem pl2e la acc hp2 hl2]
  simp only [← h1, page_index_eq, perm_bit_iff]
  simp

/-- A present entry never faults at level 1, leaf or not. -/
theorem walk_level1_ret (mem : Nat → Nat) (entry nextEntry index : Nat)
    (acc : access) (flag : Int) (hp : entry.testBit 0 = true) :
    (walkOneLevel mem entry nextEntry index 1 acc flag).ret = fault.FAULT_NONE := by
  cases hl : entry.testBit 4
  · rw [walk_nonLeaf mem entry _ _ _ _ _ hp hl]
  · rw [walk_leaf1 mem entry _ _ _ _ hp hl]

/-- The frame base plus a 12-bit page offset, as level 1 computes it: the sum
does not wrap. -/
theorem page_addr (e la : Nat) :
    (((e >>> 12) <<< 12) % 2 ^ 32 + (la &&& 0xFFF)) % 2 ^ 32
      = (e &&& 0xFFFFF000) + (la &&& 0xFFF) := by
  rw [and_FFFFF000, and_FFF]
  simp only [Nat.shiftLeft_eq, Nat.shiftRight_eq_div_pow]
  omega

theorem page_addr_lt (e la : Nat) : (e &&& 0xFFFFF000) + (la &&& 0xFFF) < 2 ^ 32 := by
  rw [and_FFFFF000, and_FFF]
  omega

/-! ## The translator: success and violation -/

/-- C1: 4 KB translation success. With `pl2e` the word read at the root-table
slot `(pl3e & 0xFFFFF000) + 4*(linearAddr >> 22)` and `pl1e` the word read at
`(pl2e & 0xFFFFF000) + 4*((linearAddr >> 12) & 0x3FF)`: when `pl3e` and `pl2e`
are present non-leaf entries, `pl1e` is a present leaf entry and all three
carry the permission bit of `acc`, `linearToPhys` returns `FAULT_NONE` and
stores `(pl1e & 0xFFFFF000) + (linearAddr & 0xFFF)`, a sum that does not leave
the 32-bit range. -/
theorem linearToPhys_4KB_success (mem : Nat → Nat) (pl3e linearAddr : Nat) (acc : access)
    (physAddr pl2e pl1e : Nat) (hla : linearAddr < 2 ^ 32)
    (h2 : pl2e = mem ((pl3e &&& 0xFFFFF000) + 4 * (linearAddr >>> 22)))
    (h1 : pl1e = mem ((pl2e &&& 0xFFFFF000) + 4 * ((linearAddr >>> 12) &&& 0x3FF)))
    (hp3 : pl3e.testBit 0 = true) (hl3 : pl3e.testBit 4 = false)
    (hp2 : pl2e.testBit 0 = true) (hl2 : pl2e.testBit 4 = false)
    (hp1 : pl1e.testBit 0 = true) (hl1 : pl1e.testBit 4 = true)
    (ha3 : pl3e.testBit acc.val = true) (ha2 : pl2e.testBit acc.val = true)
    (ha1 : pl1e.testBit acc.val = true) :
    (linearToPhys mem pl3e linearAddr acc physAddr).ret = fault.FAULT_NONE
      ∧ (linearToPhys mem pl3e linearAddr acc physAddr).physAddr
          = (pl1e &&& 0xFFFFF000) + (linearAddr &&& 0xFFF)
      ∧ (pl1e &&& 0xFFFFF000) + (linearAddr &&& 0xFFF) < 2 ^ 32 := by
  rw [linearToPhys_level1 mem pl3e linearAddr acc physAddr pl2e pl1e hla h2 h1 hp3 hl3 hp2 hl2,
    walk_leaf1 mem pl1e _ _ _ _ hp1 hl1, page_addr]
  refine ⟨?_, ?_, page_addr_lt pl1e linearAddr⟩ <;> simp [ha3, ha2, ha1]

theorem linearToPhys_4KB_success_witness :
    (linearToPhys (fun a => if a = 4 then 0x5001F else 0xF) 0xF 0x1234 access.ACCESS_WRITE 99).ret
        = fault.FAULT_NONE
      ∧ (linearToPhys (fun a => if a = 4 then 0x5001F else 0xF) 0xF 0x1234
            access.ACCESS_WRITE 99).physAddr = (0x5001F &&& 0xFFFFF000) + (0x1234 &&& 0xFFF)
      ∧ (0x5001F &&& 0xFFFFF000) + (0x1234 &&& 0xFFF) < 2 ^ 32 :=
  linearToPhys_4KB_success (fun a => if a = 4 then 0x5001F else 0xF) 0xF 0x1234
    access.ACCESS_WRITE 99 0xF 0x5001F (by decide) (by decide) (by decide) (by decide)
    (by decide) (by decide) (by decide) (by decide) (by decide) (by decide) (by decide)
    (by decide)

/-- C2: permission violation is reported. With `pl2e` and `pl1e` the words
read at levels 3 and 2 as in C1: when all three entries are present, `pl3e`
and `pl2e` are non-leaf, and at least one of the three lacks the permission
bit of `acc`, `linearToPhys` returns `FAULT_VIOLATION`. -/
theorem linearToPhys_violation (mem : Nat → Nat) (pl3e linearAddr : Nat) (acc : access)
    (physAddr pl2e pl1e : Nat) (hla : linearAddr < 2 ^ 32)
    (h2 : pl2e = mem ((pl3e &&& 0xFFFFF000) + 4 * (linearAddr >>> 22)))
    (h1 : pl1e = mem ((pl2e &&& 0xFFFFF000) + 4 * ((linearAddr >>> 12) &&& 0x3FF)))
    (hp3 : pl3e.testBit 0 = true) (hp2 : pl2e.testBit 0 = true) (hp1 : pl1e.testBit 0 = true)
    (hl3 : pl3e.testBit 4 = false) (hl2 : pl2e.testBit 4 = false)
    (hperm : pl3e.testBit acc.val = false ∨ pl2e.testBit acc.val = false
      ∨ pl1e.testBit acc.val = false) :
    (linearToPhys mem pl3e linearAddr acc physAddr).ret = fault.FAULT_VIOLATION := by
  have hcond : ¬ pl3e.testBit acc.val = true ∨ ¬ pl2e.testBit acc.val = true
      ∨ ¬ pl1e.testBit acc.val = true := by
    rcases hperm with h | h | h
    · exact Or.inl (by simp [h])
    · exact Or.inr (Or.inl (by simp [h]))
    · exact Or.inr (Or.inr (by simp [h]))
  rw [linearToPhys_level1 mem pl3e linearAddr acc physAddr pl2e pl1e hla h2 h1 hp3 hl3 hp2 hl2]
  have hret := walk_level1_ret mem pl1e 0 (linearAddr &&& 0xFFF) acc 0 hp1
  rw [if_neg (by simp [hret]), if_pos hcond]

theorem linearToPhys_violation_witness :
    (linearToPhys (fun a => if a = 4 then 0x5001B else 0xF) 0xF 0x1234
      access.ACCESS_WRITE 99).ret = fault.FAULT_VIOLATION :=
  linearToPhys_violation (fun a => if a = 4 then 0x5001B else 0xF) 0xF 0x1234
    access.ACCESS_WRITE 99 0xF 0x5001B (by decide) (by decide) (by decide) (by decide)
    (by decide) (by decide) (by decide) (by decide) (Or.inr (Or.inr (by decide)))

/-- A returned `FAULT_VIOLATION` comes from the permission check at the end of
a walk through three present entries, the first two non-leaf. -/
theorem violation_needs_full_walk (mem : Nat → Nat) (pl3e la : Nat) (acc : access)
    (pa pl2e pl1e : Nat) (hla : la < 2 ^ 32)
    (h2 : pl2e = mem ((pl3e &&& 0xFFFFF000) + 4 * (la >>> 22)))
    (h1 : pl1e = mem ((pl2e &&& 0xFFFFF000) + 4 * ((la >>> 12) &&& 0x3FF)))
    (hv : (linearToPhys mem pl3e la acc pa).ret = fault.FAULT_VIOLATION) :
    pl3e.testBit 0 = true ∧ pl2e.testBit 0 = true ∧ pl1e.testBit 0 = true
      ∧ pl3e.testBit 4 = false ∧ pl2e.testBit 4 = false
      ∧ (pl3e.testBit acc.val = false ∨ pl2e.testBit acc.val = false
          ∨ pl1e.testBit acc.val = false) := by
  cases hp3 : pl3e.testBit 0
  · rw [linearToPhys_root_notPresent mem pl3e la acc pa hp3] at hv
    simp at hv
  cases hl3 : pl3e.testBit 4
  swap
  · rw [linearToPhys_root_leaf mem pl3e la acc pa hp3 hl3] at hv
    split at hv <;> simp at hv
  cases hp2 : pl2e.testBit 0
  · rw [linearToPhys_mid_notPresent mem pl3e la acc pa hla hp3 hl3 (h2 ▸ hp2)] at hv
    simp at hv
  cases hl2 : pl2e.testBit 4
  swap
  · rw [linearToPhys_mid_leaf mem pl3e la acc pa hla hp3 hl3 (h2 ▸ hp2) (h2 ▸ hl2)] at hv
    split at hv <;> simp at hv
  rw [linearToPhys_level1 mem pl3e la acc pa pl2e pl1e hla h2 h1 hp3 hl3 hp2 hl2] at hv
  cases hp1 : pl1e.testBit 0
  · rw [walk_notPresent mem pl1e _ _ _ _ _ hp1] at hv
    simp at hv
  have hret := walk_level1_ret mem pl1e 0 (la &&& 0xFFF) acc 0 hp1
  rw [if_neg (by simp [hret])] at hv
  refine ⟨rfl, rfl, rfl, rfl, rfl, ?_⟩
  split at hv
  · rename_i hc
    simpa using hc
  · simp at hv

/-- C3: violation only after a complete non-terminal walk. With `pl2e` and
`pl1e` the words read at levels 3 and 2: if `linearToPhys` returns
`FAULT_VIOLATION` then all three entries are present, `pl3e` and `pl2e` are
non-leaf and one of the three lacks the permission bit of `acc`. Equivalently:
when the walker call of level 3 or of level 2 returns a fault or sets the
terminal flag, or the walker call of level 1 returns a fault, the result is
not `FAULT_VIOLATION`. -/
theorem linearToPhys_violation_only_after_walk (mem : Nat → Nat) (pl3e linearAddr : Nat)
    (acc : access) (physAddr pl2e pl1e : Nat) (hla : linearAddr < 2 ^ 32)
    (h2 : pl2e = mem ((pl3e &&& 0xFFFFF000) + 4 * (linearAddr >>> 22)))
    (h1 : pl1e = mem ((pl2e &&& 0xFFFFF000) + 4 * ((linearAddr >>> 12) &&& 0x3FF))) :
    ((linearToPhys mem pl3e linearAddr acc physAddr).ret = fault.FAULT_VIOLATION →
        pl3e.testBit 0 = true ∧ pl2e.testBit 0 = true ∧ pl1e.testBit 0 = true
          ∧ pl3e.testBit 4 = false ∧ pl2e.testBit 4 = false
          ∧ (pl3e.testBit acc.val = false ∨ pl2e.testBit acc.val = false
              ∨ pl1e.testBit acc.val = false))
      ∧ ((walkOneLevel mem pl3e 0 (linearAddr >>> 22) 3 acc 0).ret ≠ fault.FAULT_NONE
            ∨ (walkOneLevel mem pl3e 0 (linearAddr >>> 22) 3 acc 0).flag = 1 →
          (linearToPhys mem pl3e linearAddr acc physAddr).ret ≠ fault.FAULT_VIOLATION)
      ∧ ((walkOneLevel mem pl2e 0 ((linearAddr >>> 12) &&& 0x3FF) 2 acc 0).ret
              ≠ fault.FAULT_NONE
            ∨ (walkOneLevel mem pl2e 0 ((linearAddr >>> 12) &&& 0x3FF) 2 acc 0).flag = 1 →
          (linearToPhys mem pl3e linearAddr acc physAddr).ret ≠ fault.FAULT_VIOLATION)
      ∧ ((walkOneLevel mem pl1e 0 (linearAddr &&& 0xFFF) 1 acc 0).ret ≠ fault.FAULT_NONE →
          (linearToPhys mem pl3e linearAddr acc physAddr).ret ≠ fault.FAULT_VIOLATION) := by
  have main := violation_needs_full_walk mem pl3e linearAddr acc physAddr pl2e pl1e hla h2 h1
  refine ⟨main, ?_, ?_, ?_⟩
  · intro hw hv
    obtain ⟨hp3, -, -, hl3, -, -⟩ := main hv
    rw [walk_nonLeaf mem pl3e _ _ _ _ _ hp3 hl3] at hw
    simp at hw
  · intro hw hv
    obtain ⟨-, hp2, -, -, hl2, -⟩ := main hv
    rw [walk_nonLeaf mem pl2e _ _ _ _ _ hp2 hl2] at hw
    simp at hw
  · intro hw hv
    obtain ⟨-, -, hp1, -, -, -⟩ := main hv
    exact hw (walk_level1_ret mem pl1e 0 (linearAddr &&& 0xFFF) acc 0 hp1)

theorem linearToPhys_violation_only_after_walk_witness :
    (0xF : Nat).testBit 0 = true ∧ (0xD : Nat).testBit 0 = true ∧ (0x5001F : Nat).testBit 0 = true
      ∧ (0xF : Nat).testBit 4 = false ∧ (0xD : Nat).testBit 4 = false
      ∧ ((0xF : Nat).testBit access.ACCESS_READ.val = false
          ∨ (0xD : Nat).testBit access.ACCESS_READ.val = false
          ∨ (0x5001F : Nat).testBit access.ACCESS_READ.val = false) :=
  (linearToPhys_violation_only_after_walk
    (fun a => if a = 8 then 0xD else if a = 12 then 0x5001F else 0) 0xF 0x00803abc
    access.ACCESS_READ 7 0xD 0x5001F (by decide) (by decide) (by decide)).1 (by decide)

/-! ## The translator: large pages and the absent root -/

/-- The 4 MB address assembly of the source, in mask form. -/
theorem large_page_addr (e la : Nat) :
    (((e >>> 22) <<< 22) % 2 ^ 32) ||| (((la <<< 10) % 2 ^ 32) >>> 10)
      = (e &&& 0xFFC00000) ||| (la &&& 0x003FFFFF) := by
  have h1 : ((e >>> 22) <<< 22) % 2 ^ 32 = e &&& 0xFFC00000 := by
    rw [and_FFC00000]
    simp only [Nat.shiftLeft_eq, Nat.shiftRight_eq_div_pow]
    omega
  have h2 : ((la <<< 10) % 2 ^ 32) >>> 10 = la &&& 0x003FFFFF := by
    rw [and_3FFFFF]
    simp only [Nat.shiftLeft_eq, Nat.shiftRight_eq_div_pow]
    omega
  rw [h1, h2]

/-- C4: 4 MB page address assembly. With `pl2e` the word read at the
root-table slot: when `pl3e` is a present non-leaf entry and `pl2e` a present
leaf entry whose bits 12-21 are zero, `linearToPhys` returns `FAULT_NONE` and
stores `(pl2e & 0xFFC00000) | (linearAddr & 0x003FFFFF)`; nothing is assumed
about the permission bits 1-3 of either entry. -/
theorem linearToPhys_4MB_page (mem : Nat → Nat) (pl3e linearAddr : Nat) (acc : access)
    (physAddr pl2e : Nat) (hla : linearAddr < 2 ^ 32)
    (h2 : pl2e = mem ((pl3e &&& 0xFFFFF000) + 4 * (linearAddr >>> 22)))
    (hp3 : pl3e.testBit 0 = true) (hl3 : pl3e.testBit 4 = false)
    (hp2 : pl2e.testBit 0 = true) (hl2 : pl2e.testBit 4 = true)
    (hz : pl2e &&& 0x003FF000 = 0) :
    (linearToPhys mem pl3e linearAddr acc physAddr).ret = fault.FAULT_NONE
      ∧ (linearToPhys mem pl3e linearAddr acc physAddr).physAddr
          = (pl2e &&& 0xFFC00000) ||| (linearAddr &&& 0x003FFFFF) := by
  have hbits : ((pl2e <<< 10) % 2 ^ 32) >>> 22 = 0 := by
    rw [shl10_shr22]
    rw [and_003FF000] at hz
    omega
  rw [linearToPhys_mid_leaf mem pl3e linearAddr acc physAddr hla hp3 hl3 (h2 ▸ hp2) (h2 ▸ hl2),
    ← h2, if_neg (not_not.mpr hbits), large_page_addr]
  exact ⟨rfl, rfl⟩

theorem linearToPhys_4MB_page_witness :
    (linearToPhys (fun a => if a = 0x2004 then 0xABC00811 else 0) 0x2FE1 0x00712345
        access.ACCESS_EXECUTE 0).ret = fault.FAULT_NONE
      ∧ (linearToPhys (fun a => if a = 0x2004 then 0xABC00811 else 0) 0x2FE1 0x00712345
          access.ACCESS_EXECUTE 0).physAddr
          = (0xABC00811 &&& 0xFFC00000) ||| (0x00712345 &&& 0x003FFFFF) :=
  linearToPhys_4MB_page (fun a => if a = 0x2004 then 0xABC00811 else 0) 0x2FE1 0x00712345
    access.ACCESS_EXECUTE 0 0xABC00811 (by decide) (by decide) (by decide) (by decide)
    (by decide) (by decide) (by decide)

/-- For a 32-bit entry, `entry >> 12` is zero exactly when bits 12-31 are. -/
theorem shr12_eq_zero_iff (e : Nat) (he : e < 2 ^ 32) :
    e >>> 12 = 0 ↔ ∀ i, 12 ≤ i → i < 32 → e.testBit i = false := by
  constructor
  · intro h i hi _
    have : (e >>> 12).testBit (i - 12) = false := by rw [h]; simp
    rw [Nat.testBit_shiftRight] at this
    rwa [show 12 + (i - 12) = i by omega] at this
  · intro h
    have hlt : e < 2 ^ 12 := by
      apply Nat.lt_pow_two_of_testBit
      intro i hi
      by_cases h32 : i < 32
      · exact h i hi h32
      · exact Nat.testBit_lt_two_pow
          (Nat.lt_of_lt_of_le he (Nat.pow_le_pow_right (by decide) (by omega)))
    rw [Nat.shiftRight_eq_div_pow]
    omega

/-- C5: 4 GB page identity mapping. For a 32-bit root entry with the present
and leaf bits set and bits 12-31 zero, `linearToPhys` returns `FAULT_NONE`,
stores `linearAddr` unchanged and reads no memory, whatever the access, the
memory and the permission bits 1-3 of the entry are. -/
theorem linearToPhys_4GB_page (mem : Nat → Nat) (pl3e linearAddr : Nat) (acc : access)
    (physAddr : Nat) (h3 : pl3e < 2 ^ 32)
    (hp3 : pl3e.testBit 0 = true) (hl3 : pl3e.testBit 4 = true)
    (hz : ∀ i, 12 ≤ i → i < 32 → pl3e.testBit i = false) :
    linearToPhys mem pl3e linearAddr acc physAddr = ⟨fault.FAULT_NONE, linearAddr, []⟩ := by
  have h : pl3e >>> 12 = 0 := (shr12_eq_zero_iff pl3e h3).2 hz
  rw [linearToPhys_root_leaf mem pl3e linearAddr acc physAddr hp3 hl3, if_neg (by simp [h])]

theorem linearToPhys_4GB_page_witness :
    linearToPhys (fun _ => 0) 0x11 0xDEADBEEF access.ACCESS_WRITE 5
      = ⟨fault.FAULT_NONE, 0xDEADBEEF, []⟩ :=
  linearToPhys_4GB_page (fun _ => 0) 0x11 0xDEADBEEF access.ACCESS_WRITE 5 (by decide)
    (by decide) (by decide)
    (fun i h12 h32 => by
      have h : (0x11 : Nat) < 2 ^ 12 := by decide
      exact Nat.testBit_lt_two_pow
        (Nat.lt_of_lt_of_le h (Nat.pow_le_pow_right (by decide) h12)))

/-- C6: root not present. For a root entry with bit 0 clear, `linearToPhys`
returns `FAULT_NOT_PRESENT`, for every linear address, access and memory. -/
theorem linearToPhys_root_absent (mem : Nat → Nat) (pl3e linearAddr : Nat) (acc : access)
    (physAddr : Nat) (hp3 : pl3e.testBit 0 = false) :
    (linearToPhys mem pl3e linearAddr acc physAddr).ret = fault.FAULT_NOT_PRESENT := by
  rw [linearToPhys_root_notPresent mem pl3e linearAddr acc physAddr hp3]

theorem linearToPhys_root_absent_witness :
    (linearToPhys (fun _ => 0xFFFFFFFF) 0 0x00401000 access.ACCESS_READ 0).ret
      = fault.FAULT_NOT_PRESENT :=
  linearToPhys_root_absent (fun _ => 0xFFFFFFFF) 0 0x00401000 access.ACCESS_READ 0
    (by decide)

/-! ## The level walker -/

/-- C7: for an entry with bit 0 clear, `walkOneLevel` returns
`FAULT_NOT_PRESENT` whatever the other bits of the entry, the index, the level,
the access and the memory are; it reads no memory and leaves `*nextEntry` and
`*flag` as they were. -/
theorem walkOneLevel_not_present (mem : Nat → Nat) (entry nextEntry index level : Nat)
    (acc : access) (flag : Int) (hp : entry.testBit 0 = false) :
    walkOneLevel mem entry nextEntry index level acc flag
      = ⟨fault.FAULT_NOT_PRESENT, nextEntry, flag, []⟩ :=
  walk_notPresent mem entry nextEntry index level acc flag hp

theorem walkOneLevel_not_present_witness :
    walkOneLevel (fun a => a) 0xFFFFFFF0 42 7 3 access.ACCESS_READ 5
      = ⟨fault.FAULT_NOT_PRESENT, 42, 5, []⟩ :=
  walkOneLevel_not_present (fun a => a) 0xFFFFFFF0 42 7 3 access.ACCESS_READ 5 (by decide)

/-- C8: level-3 leaf handling. For a 32-bit entry with bits 0 and 4 set,
`walkOneLevel` at level 3 returns `FAULT_MALFORMED` when some bit among 12-31
is set, leaving `*flag` and `*nextEntry` as they were and reading nothing, and
otherwise returns `FAULT_NONE` with `*flag = 1`; two such entries that agree
on bits 12-31 give the same outcome, so bits 1-3 and 5-11 have no influence. -/
theorem walkOneLevel_leaf_level3 (mem : Nat → Nat) (entry nextEntry index : Nat)
    (acc : access) (flag : Int) (he : entry < 2 ^ 32)
    (hp : entry.testBit 0 = true) (hl : entry.testBit 4 = true) :
    ((∃ i, 12 ≤ i ∧ i < 32 ∧ entry.testBit i = true) →
        walkOneLevel mem entry nextEntry index 3 acc flag
          = ⟨fault.FAULT_MALFORMED, nextEntry, flag, []⟩)
      ∧ ((∀ i, 12 ≤ i → i < 32 → entry.testBit i = false) →
        walkOneLevel mem entry nextEntry index 3 acc flag
          = ⟨fault.FAULT_NONE, nextEntry, 1, []⟩)
      ∧ (∀ entry2 : Nat, entry2 < 2 ^ 32 → entry2.testBit 0 = true → entry2.testBit 4 = true →
          (∀ i, 12 ≤ i → i < 32 → entry2.testBit i = entry.testBit i) →
          walkOneLevel mem entry2 nextEntry index 3 acc flag
            = walkOneLevel mem entry nextEntry index 3 acc flag) := by
  refine ⟨?_, ?_, ?_⟩
  · rintro ⟨i, h12, h32, hi⟩
    have hne : entry >>> 12 ≠ 0 := by
      intro h0
      have := (shr12_eq_zero_iff entry he).1 h0 i h12 h32
      rw [hi] at this
      exact Bool.noConfusion this
    rw [walk_leaf3 mem entry _ _ _ _ hp hl, if_pos hne]
  · intro hz
    have h0 : entry >>> 12 = 0 := (shr12_eq_zero_iff entry he).2 hz
    rw [walk_leaf3 mem entry _ _ _ _ hp hl, if_neg (not_not.mpr h0)]
  · intro entry2 he2 hp2 hl2 hagree
    have hiff : entry2 >>> 12 = 0 ↔ entry >>> 12 = 0 := by
      rw [shr12_eq_zero_iff entry2 he2, shr12_eq_zero_iff entry he]
      constructor
      · intro h i h12 h32
        rw [← hagree i h12 h32]
        exact h i h12 h32
      · intro h i h12 h32
        rw [hagree i h12 h32]
        exact h i h12 h32
    rw [walk_leaf3 mem entry _ _ _ _ hp hl, walk_leaf3 mem entry2 _ _ _ _ hp2 hl2]
    by_cases h0 : entry >>> 12 = 0
    · rw [if_neg (not_not.mpr h0), if_neg (not_not.mpr (hiff.2 h0))]
    · rw [if_pos h0, if_pos (fun h => h0 (hiff.1 h))]

theorem walkOneLevel_leaf_level3_witness :
    walkOneLevel (fun a => a) 0x00001011 42 7 3 access.ACCESS_READ 0
      = ⟨fault.FAULT_MALFORMED, 42, 0, []⟩ :=
  (walkOneLevel_leaf_level3 (fun a => a) 0x00001011 42 7 access.ACCESS_READ 0 (by decide)
    (by decide) (by decide)).1 ⟨12, by decide, by decide, by decide⟩

/-- C9: level-2 leaf handling. For an entry with bits 0 and 4 set,
`walkOneLevel` at level 2 returns `FAULT_MALFORMED` exactly when
`entry & 0x003FF000` is non-zero, then leaving the out-parameters as they were,
and otherwise returns `FAULT_NONE` with `*flag = 1`; the 32-bit expression
`(entry << 10) >> 22` is the field of bits 12-21 of the entry, and two such
entries that agree on bits 12-21 give the same outcome, so bits 22-31 and
1-11 have no influence. -/
theorem walkOneLevel_leaf_level2 (mem : Nat → Nat) (entry nextEntry index : Nat)
    (acc : access) (flag : Int)
    (hp : entry.testBit 0 = true) (hl : entry.testBit 4 = true) :
    ((walkOneLevel mem entry nextEntry index 2 acc flag).ret = fault.FAULT_MALFORMED
        ↔ entry &&& 0x003FF000 ≠ 0)
      ∧ (entry &&& 0x003FF000 ≠ 0 →
          walkOneLevel mem entry nextEntry index 2 acc flag
            = ⟨fault.FAULT_MALFORMED, nextEntry, flag, []⟩)
      ∧ (entry &&& 0x003FF000 = 0 →
          walkOneLevel mem entry nextEntry index 2 acc flag
            = ⟨fault.FAULT_NONE, nextEntry, 1, []⟩)
      ∧ ((entry <<< 10) % UINT32_MOD) >>> 22 = (entry &&& 0x003FF000) >>> 12
      ∧ (∀ entry2 : Nat, entry2.testBit 0 = true → entry2.testBit 4 = true →
          entry2 &&& 0x003FF000 = entry &&& 0x003FF000 →
          walkOneLevel mem entry2 nextEntry index 2 acc flag
            = walkOneLevel mem entry nextEntry index 2 acc flag) := by
  have hfield : ∀ e : Nat, ((e <<< 10) % 2 ^ 32) >>> 22 = (e &&& 0x003FF000) >>> 12 := by
    intro e
    rw [shl10_shr22, and_003FF000, Nat.shiftRight_eq_div_pow]
    omega
  have hzero : ∀ e : Nat, ((e <<< 10) % 2 ^ 32) >>> 22 = 0 ↔ e &&& 0x003FF000 = 0 := by
    intro e
    rw [shl10_shr22, and_003FF000]
    omega
  have hbad : entry &&& 0x003FF000 ≠ 0 →
      walkOneLevel mem entry nextEntry index 2 acc flag
        = ⟨fault.FAULT_MALFORMED, nextEntry, flag, []⟩ := by
    intro h
    rw [walk_leaf2 mem entry _ _ _ _ hp hl, if_pos (fun h0 => h ((hzero entry).1 h0))]
  have hok : entry &&& 0x003FF000 = 0 →
      walkOneLevel mem entry nextEntry index 2 acc flag
        = ⟨fault.FAULT_NONE, nextEntry, 1, []⟩ := by
    intro h
    rw [walk_leaf2 mem entry _ _ _ _ hp hl, if_neg (not_not.mpr ((hzero entry).2 h))]
  refine ⟨?_, hbad, hok, hfield entry, ?_⟩
  · constructor
    · intro hret h0
      rw [hok h0] at hret
      exact fault.noConfusion hret
    · intro h
      rw [hbad h]
  · intro entry2 hp2 hl2 hagree
    rw [walk_leaf2 mem entry _ _ _ _ hp hl, walk_leaf2 mem entry2 _ _ _ _ hp2 hl2,
      hfield entry, hfield entry2, hagree]

theorem walkOneLevel_leaf_level2_witness :
    ((walkOneLevel (fun a => a) 0xFFC00FFF 42 7 2 access.ACCESS_READ 0).ret
        = fault.FAULT_MALFORMED ↔ 0xFFC00FFF &&& 0x003FF000 ≠ 0)
      ∧ (0xFFC00FFF &&& 0x003FF000 ≠ 0 →
          walkOneLevel (fun a => a) 0xFFC00FFF 42 7 2 access.ACCESS_READ 0
            = ⟨fault.FAULT_MALFORMED, 42, 0, []⟩)
      ∧ (0xFFC00FFF &&& 0x003FF000 = 0 →
          walkOneLevel (fun a => a) 0xFFC00FFF 42 7 2 access.ACCESS_READ 0
            = ⟨fault.FAULT_NONE, 42, 1, []⟩)
      ∧ ((0xFFC00FFF <<< 10) % UINT32_MOD) >>> 22 = (0xFFC00FFF &&& 0x003FF000) >>> 12
      ∧ (∀ entry2 : Nat, entry2.testBit 0 = true → entry2.testBit 4 = true →
          entry2 &&& 0x003FF000 = 0xFFC00FFF &&& 0x003FF000 →
          walkOneLevel (fun a => a) entry2 42 7 2 access.ACCESS_READ 0
            = walkOneLevel (fun a => a) 0xFFC00FFF 42 7 2 access.ACCESS_READ 0) :=
  walkOneLevel_leaf_level2 (fun a => a) 0xFFC00FFF 42 7 access.ACCESS_READ 0 (by decide)
    (by decide)

/-- C10: non-leaf step. For an entry with bit 0 set and bit 4 clear, at every
level (also outside 1, 2, 3), `walkOneLevel` returns `FAULT_NONE`, stores in
`*nextEntry` the word of memory at `((entry >> 12) << 12) + index*4` taken
modulo `2^32`, leaves `*flag` as it was, and reads memory once, at that
address. -/
theorem walkOneLevel_non_leaf (mem : Nat → Nat) (entry nextEntry index level : Nat)
    (acc : access) (flag : Int)
    (hp : entry.testBit 0 = true) (hl : entry.testBit 4 = false) :
    walkOneLevel mem entry nextEntry index level acc flag
      = ⟨fault.FAULT_NONE, mem ((((entry >>> 12) <<< 12) + index * 4) % 2 ^ 32), flag,
          [(((entry >>> 12) <<< 12) + index * 4) % 2 ^ 32]⟩ := by
  rw [walk_nonLeaf mem entry nextEntry index level acc flag hp hl, ← Nat.add_mod]

theorem walkOneLevel_non_leaf_witness :
    walkOneLevel (fun a => a + 1) 0xFFFFF00F 42 0x40000401 9 access.ACCESS_EXECUTE 5
      = ⟨fault.FAULT_NONE,
          (fun a => a + 1) ((((0xFFFFF00F >>> 12) <<< 12) + 0x40000401 * 4) % 2 ^ 32), 5,
          [(((0xFFFFF00F >>> 12) <<< 12) + 0x40000401 * 4) % 2 ^ 32]⟩ :=
  walkOneLevel_non_leaf (fun a => a + 1) 0xFFFFF00F 42 0x40000401 9 access.ACCESS_EXECUTE 5
    (by decide) (by decide)

/-- C11: level-1 leaf step. For an entry with bits 0 and 4 set,
`walkOneLevel` at level 1 returns `FAULT_NONE` (so never `FAULT_MALFORMED`,
whatever the other bits are), stores `((entry >> 12) << 12) + index` modulo
`2^32` in `*nextEntry`, leaves `*flag` as it was and reads no memory. -/
theorem walkOneLevel_leaf_level1 (mem : Nat → Nat) (entry nextEntry index : Nat)
    (acc : access) (flag : Int)
    (hp : entry.testBit 0 = true) (hl : entry.testBit 4 = true) :
    walkOneLevel mem entry nextEntry index 1 acc flag
        = ⟨fault.FAULT_NONE, (((entry >>> 12) <<< 12) + index) % 2 ^ 32, flag, []⟩
      ∧ (walkOneLevel mem entry nextEntry index 1 acc flag).ret ≠ fault.FAULT_MALFORMED := by
  have h : walkOneLevel mem entry nextEntry index 1 acc flag
      = ⟨fault.FAULT_NONE, (((entry >>> 12) <<< 12) + index) % 2 ^ 32, flag, []⟩ := by
    rw [walk_leaf1 mem entry nextEntry index acc flag hp hl, Nat.mod_add_mod]
  refine ⟨h, ?_⟩
  rw [h]
  exact fun hne => fault.noConfusion hne

theorem walkOneLevel_leaf_level1_witness :
    walkOneLevel (fun a => a) 0xFFFFFFFF 42 0xFFF 1 access.ACCESS_WRITE 0
        = ⟨fault.FAULT_NONE, (((0xFFFFFFFF >>> 12) <<< 12) + 0xFFF) % 2 ^ 32, 0, []⟩
      ∧ (walkOneLevel (fun a => a) 0xFFFFFFFF 42 0xFFF 1 access.ACCESS_WRITE 0).ret
          ≠ fault.FAULT_MALFORMED :=
  walkOneLevel_leaf_level1 (fun a => a) 0xFFFFFFFF 42 0xFFF access.ACCESS_WRITE 0
    (by decide) (by decide)

/-- The fault returned by the walker is decided by the entry and the level. -/
theorem walk_ret_eq (mem : Nat → Nat) (entry nextEntry index level : Nat)
    (acc : access) (flag : Int) :
    (walkOneLevel mem entry nextEntry index level acc flag).ret
      = if entry &&& 1 = 0 then fault.FAULT_NOT_PRESENT
        else if (entry >>> LEAF_BIT) &&& 1 ≠ 0 ∧ level = 3 ∧ entry >>> 12 ≠ 0 then
          fault.FAULT_MALFORMED
        else if (entry >>> LEAF_BIT) &&& 1 ≠ 0 ∧ level = 2
            ∧ ((entry <<< 10) % UINT32_MOD) >>> 22 ≠ 0 then
          fault.FAULT_MALFORMED
        else fault.FAULT_NONE := by
  unfold walkOneLevel
  split_ifs <;> simp_all

/-- C12: the fault returned by `walkOneLevel` is `FAULT_NONE`,
`FAULT_NOT_PRESENT` or `FAULT_MALFORMED`, never `FAULT_VIOLATION`, for every
entry, index, level, access, memory and initial out-parameters; and it is the
same fault for every other access and every other memory. -/
theorem walkOneLevel_fault_range (mem : Nat → Nat) (entry nextEntry index level : Nat)
    (acc : access) (flag : Int) :
    ((walkOneLevel mem entry nextEntry index level acc flag).ret = fault.FAULT_NONE
        ∨ (walkOneLevel mem entry nextEntry index level acc flag).ret = fault.FAULT_NOT_PRESENT
        ∨ (walkOneLevel mem entry nextEntry index level acc flag).ret = fault.FAULT_MALFORMED)
      ∧ (walkOneLevel mem entry nextEntry index level acc flag).ret ≠ fault.FAULT_VIOLATION
      ∧ (∀ (mem2 : Nat → Nat) (acc2 : access),
          (walkOneLevel mem2 entry nextEntry index level acc2 flag).ret
            = (walkOneLevel mem entry nextEntry index level acc flag).ret) := by
  refine ⟨?_, ?_, ?_⟩
  · rw [walk_ret_eq]
    split_ifs <;> simp
  · rw [walk_ret_eq]
    split_ifs <;> simp
  · intro mem2 acc2
    rw [walk_ret_eq, walk_ret_eq]

/-! ## The scenario of the specification -/

/-- The outcome that C13 expects does not occur: on the scenario's inputs the
translator does not return `FAULT_NONE` with physical address 0. -/
theorem linearToPhys_scenario_not_success :
    ¬ ((linearToPhys (fun a => if a = 0x1000 then 0x00000007 else 0x00000001)
            0x00000001 0x00001000 access.ACCESS_READ 0).ret = fault.FAULT_NONE
        ∧ (linearToPhys (fun a => if a = 0x1000 then 0x00000007 else 0x00000001)
            0x00000001 0x00001000 access.ACCESS_READ 0).physAddr = 0) := by
  decide

/-- C13 (amended): with `rootEntry = 0x00000001`, a memory that holds
`0x00000001` everywhere except `0x00000007` at `0x1000`, `linearAddr =
0x00001000` and access Read, `linearToPhys` returns `FAULT_VIOLATION` and
leaves `*physAddr` as it was. The walk reads addresses 0, 4 and 0: the entries
`0x1` it meets at levels 3, 2 and 1 are present and non-leaf, none carries the
Read bit, and address `0x1000` is not read. -/
theorem linearToPhys_scenario_violation (v : Nat) :
    linearToPhys (fun a => if a = 0x1000 then 0x00000007 else 0x00000001)
        0x00000001 0x00001000 access.ACCESS_READ v
      = ⟨fault.FAULT_VIOLATION, v, [0, 4, 0]⟩ := by
  rfl

/-! ## Every path of the translator -/

/-- The address read by a non-leaf entry at level 1: the 12-bit page index is
scaled by 4, so the sum may leave the frame and may wrap. -/
theorem last_addr (e la : Nat) :
    (((e >>> 12) <<< 12) % 2 ^ 32 + ((la &&& 0xFFF) * 4) % 2 ^ 32) % 2 ^ 32
      = ((e &&& 0xFFFFF000) + 4 * (la &&& 0xFFF)) % 2 ^ 32 := by
  rw [and_FFFFF000, and_FFF]
  simp only [Nat.shiftLeft_eq, Nat.shiftRight_eq_div_pow]
  omega

/-- The outcome of `linearToPhys` on a 32-bit linear address, path by path.
`pl2e` and `pl1e` are the words at the table slots selected at levels 3 and 2. -/
theorem linearToPhys_paths (mem : Nat → Nat) (pl3e la : Nat) (acc : access)
    (pa pl2e pl1e : Nat) (hla : la < 2 ^ 32)
    (h2 : pl2e = mem ((pl3e &&& 0xFFFFF000) + 4 * (la >>> 22)))
    (h1 : pl1e = mem ((pl2e &&& 0xFFFFF000) + 4 * ((la >>> 12) &&& 0x3FF))) :
    (pl3e.testBit 0 = false
        ∧ linearToPhys mem pl3e la acc pa = ⟨fault.FAULT_NOT_PRESENT, pa, []⟩)
      ∨ (pl3e.testBit 0 = true ∧ pl3e.testBit 4 = true ∧ pl3e >>> 12 ≠ 0
        ∧ linearToPhys mem pl3e la acc pa = ⟨fault.FAULT_MALFORMED, pa, []⟩)
      ∨ (pl3e.testBit 0 = true ∧ pl3e.testBit 4 = true ∧ pl3e >>> 12 = 0
        ∧ linearToPhys mem pl3e la acc pa = ⟨fault.FAULT_NONE, la, []⟩)
      ∨ (pl3e.testBit 0 = true ∧ pl3e.testBit 4 = false ∧ pl2e.testBit 0 = false
        ∧ linearToPhys mem pl3e la acc pa
            = ⟨fault.FAULT_NOT_PRESENT, pa, [(pl3e &&& 0xFFFFF000) + 4 * (la >>> 22)]⟩)
      ∨ (pl3e.testBit 0 = true ∧ pl3e.testBit 4 = false ∧ pl2e.testBit 0 = true
        ∧ pl2e.testBit 4 = true ∧ pl2e &&& 0x003FF000 ≠ 0
        ∧ linearToPhys mem pl3e la acc pa
            = ⟨fault.FAULT_MALFORMED, pa, [(pl3e &&& 0xFFFFF000) + 4 * (la >>> 22)]⟩)
      ∨ (pl3e.testBit 0 = true ∧ pl3e.testBit 4 = false ∧ pl2e.testBit 0 = true
        ∧ pl2e.testBit 4 = true ∧ pl2e &&& 0x003FF000 = 0
        ∧ linearToPhys mem pl3e la acc pa
            = ⟨fault.FAULT_NONE, (pl2e &&& 0xFFC00000) ||| (la &&& 0x003FFFFF),
                [(pl3e &&& 0xFFFFF000) + 4 * (la >>> 22)]⟩)
      ∨ (pl3e.testBit 0 = true ∧ pl3e.testBit 4 = false ∧ pl2e.testBit 0 = true
        ∧ pl2e.testBit 4 = false ∧ pl1e.testBit 0 = false
        ∧ linearToPhys mem pl3e la acc pa
            = ⟨fault.FAULT_NOT_PRESENT, pa,
                [(pl3e &&& 0xFFFFF000) + 4 * (la >>> 22),
                  (pl2e &&& 0xFFFFF000) + 4 * ((la >>> 12) &&& 0x3FF)]⟩)
      ∨ (pl3e.testBit 0 = true ∧ pl3e.testBit 4 = false ∧ pl2e.testBit 0 = true
        ∧ pl2e.testBit 4 = false ∧ pl1e.testBit 0 = true ∧ pl1e.testBit 4 = true
        ∧ (¬ pl3e.testBit acc.val = true ∨ ¬ pl2e.testBit acc.val = true
            ∨ ¬ pl1e.testBit acc.val = true)
        ∧ linearToPhys mem pl3e la acc pa
            = ⟨fault.FAULT_VIOLATION, pa,
                [(pl3e &&& 0xFFFFF000) + 4 * (la >>> 22),
                  (pl2e &&& 0xFFFFF000) + 4 * ((la >>> 12) &&& 0x3FF)]⟩)
      ∨ (pl3e.testBit 0 = true ∧ pl3e.testBit 4 = false ∧ pl2e.testBit 0 = true
        ∧ pl2e.testBit 4 = false ∧ pl1e.testBit 0 = true ∧ pl1e.testBit 4 = true
        ∧ (pl3e.testBit acc.val = true ∧ pl2e.testBit acc.val = true
            ∧ pl1e.testBit acc.val = true)
        ∧ linearToPhys mem pl3e la acc pa
            = ⟨fault.FAULT_NONE, (pl1e &&& 0xFFFFF000) + (la &&& 0xFFF),
                [(pl3e &&& 0xFFFFF000) + 4 * (la >>> 22),
                  (pl2e &&& 0xFFFFF000) + 4 * ((la >>> 12) &&& 0x3FF)]⟩)
      ∨ (pl3e.testBit 0 = true ∧ pl3e.testBit 4 = false ∧ pl2e.testBit 0 = true
        ∧ pl2e.testBit 4 = false ∧ pl1e.testBit 0 = true ∧ pl1e.testBit 4 = false
        ∧ (¬ pl3e.testBit acc.val = true ∨ ¬ pl2e.testBit acc.val = true
            ∨ ¬ pl1e.testBit acc.val = true)
        ∧ linearToPhys mem pl3e la acc pa
            = ⟨fault.FAULT_VIOLATION, pa,
                [(pl3e &&& 0xFFFFF000) + 4 * (la >>> 22),
                  (pl2e &&& 0xFFFFF000) + 4 * ((la >>> 12) &&& 0x3FF),
                  ((pl1e &&& 0xFFFFF000) + 4 * (la &&& 0xFFF)) % 2 ^ 32]⟩)
      ∨ (pl3e.testBit 0 = true ∧ pl3e.testBit 4 = false ∧ pl2e.testBit 0 = true
        ∧ pl2e.testBit 4 = false ∧ pl1e.testBit 0 = true ∧ pl1e.testBit 4 = false
        ∧ (pl3e.testBit acc.val = true ∧ pl2e.testBit acc.val = true
            ∧ pl1e.testBit acc.val = true)
        ∧ linearToPhys mem pl3e la acc pa
            = ⟨fault.FAULT_NONE, mem (((pl1e &&& 0xFFFFF000) + 4 * (la &&& 0xFFF)) % 2 ^ 32),
                [(pl3e &&& 0xFFFFF000) + 4 * (la >>> 22),
                  (pl2e &&& 0xFFFFF000) + 4 * ((la >>> 12) &&& 0x3FF),
                  ((pl1e &&& 0xFFFFF000) + 4 * (la &&& 0xFFF)) % 2 ^ 32]⟩) := by
  cases hp3 : pl3e.testBit 0
  · exact Or.inl ⟨rfl, linearToPhys_root_notPresent mem pl3e la acc pa hp3⟩
  right
  cases hl3 : pl3e.testBit 4
  swap
  · have h := linearToPhys_root_leaf mem pl3e la acc pa hp3 hl3
    by_cases h0 : pl3e >>> 12 = 0
    · rw [if_neg (not_not.mpr h0)] at h
      exact Or.inr (Or.inl ⟨rfl, rfl, h0, h⟩)
    · rw [if_pos h0] at h
      exact Or.inl ⟨rfl, rfl, h0, h⟩
  right; right
  cases hp2 : pl2e.testBit 0
  · exact Or.inl ⟨rfl, rfl, rfl,
      linearToPhys_mid_notPresent mem pl3e la acc pa hla hp3 hl3 (h2 ▸ hp2)⟩
  right
  have hzero : ((pl2e <<< 10) % 2 ^ 32) >>> 22 = 0 ↔ pl2e &&& 0x003FF000 = 0 := by
    rw [shl10_shr22, and_003FF000]
    omega
  cases hl2 : pl2e.testBit 4
  swap
  · have h := linearToPhys_mid_leaf mem pl3e la acc pa hla hp3 hl3 (h2 ▸ hp2) (h2 ▸ hl2)
    rw [← h2] at h
    by_cases h0 : ((pl2e <<< 10) % 2 ^ 32) >>> 22 = 0
    · rw [if_neg (not_not.mpr h0), large_page_addr] at h
      exact Or.inr (Or.inl ⟨rfl, rfl, rfl, rfl, hzero.1 h0, h⟩)
    · rw [if_pos h0] at h
      exact Or.inl ⟨rfl, rfl, rfl, rfl, fun hz => h0 (hzero.2 hz), h⟩
  right; right
  have h := linearToPhys_level1 mem pl3e la acc pa pl2e pl1e hla h2 h1 hp3 hl3 hp2 hl2
  cases hp1 : pl1e.testBit 0
  · rw [walk_notPresent mem pl1e _ _ _ _ _ hp1] at h
    exact Or.inl ⟨rfl, rfl, rfl, rfl, rfl, h⟩
  right
  cases hl1 : pl1e.testBit 4
  · rw [walk_nonLeaf mem pl1e _ _ _ _ _ hp1 hl1, last_addr] at h
    right; right
    by_cases hperm : ¬ pl3e.testBit acc.val = true ∨ ¬ pl2e.testBit acc.val = true
        ∨ ¬ pl1e.testBit acc.val = true
    · rw [if_neg (by simp), if_pos hperm] at h
      exact Or.inl ⟨rfl, rfl, rfl, rfl, rfl, rfl, hperm, h⟩
    · rw [if_neg (by simp), if_neg hperm] at h
      refine Or.inr ⟨rfl, rfl, rfl, rfl, rfl, rfl, ?_, h⟩
      simpa [not_or] using hperm
  · rw [walk_leaf1 mem pl1e _ _ _ _ hp1 hl1, page_addr] at h
    by_cases hperm : ¬ pl3e.testBit acc.val = true ∨ ¬ pl2e.testBit acc.val = true
        ∨ ¬ pl1e.testBit acc.val = true
    · rw [if_neg (by simp), if_pos hperm] at h
      exact Or.inl ⟨rfl, rfl, rfl, rfl, rfl, rfl, hperm, h⟩
    · rw [if_neg (by simp), if_neg hperm] at h
      refine Or.inr (Or.inl ⟨rfl, rfl, rfl, rfl, rfl, rfl, ?_, h⟩)
      simpa [not_or] using hperm

/-! ## Memory reads and the output slot -/

/-- One walker call reads once on a present non-leaf entry, and not at all
otherwise. -/
theorem walk_reads_length (mem : Nat → Nat) (entry nextEntry index level : Nat)
    (acc : access) (flag : Int) :
    (walkOneLevel mem entry nextEntry index level acc flag).reads.length
      = if entry.testBit 0 = true ∧ entry.testBit 4 = false then 1 else 0 := by
  cases hp : entry.testBit 0
  · rw [walk_notPresent mem entry _ _ _ _ _ hp]
    simp
  cases hl : entry.testBit 4
  · rw [walk_nonLeaf mem entry _ _ _ _ _ hp hl]
    simp
  · have h0 : ¬ entry &&& 1 = 0 := by
      rw [and_one_eq_zero_iff]; simp [hp]
    have h4 : (entry >>> LEAF_BIT) &&& 1 ≠ 0 := by
      show ¬ (entry >>> 4) &&& 1 = 0
      rw [shiftRight_and_one_eq_zero_iff entry 4]; simp [hl]
    unfold walkOneLevel
    rw [if_neg h0, if_pos h4]
    split_ifs <;> simp_all

theorem walk_reads_le_one (mem : Nat → Nat) (entry nextEntry index level : Nat)
    (acc : access) (flag : Int) :
    (walkOneLevel mem entry nextEntry index level acc flag).reads.length ≤ 1 := by
  rw [walk_reads_length]
  split_ifs <;> omega

/-- The bound of two reads that C14 states fails: this call of the translator
meets three present non-leaf entries and reads memory three times. -/
theorem linearToPhys_reads_exceed_two :
    ¬ ((linearToPhys (fun _ => 0xF) 0xF 0x00C02004 access.ACCESS_READ 0).reads.length ≤ 2) := by
  decide

/-- One call of the translator records at most three reads. -/
theorem linearToPhys_reads_le_three (mem : Nat → Nat) (pl3e la : Nat) (acc : access)
    (pa : Nat) : (linearToPhys mem pl3e la acc pa).reads.length ≤ 3 := by
  simp only [linearToPhys]
  have h3 := walk_reads_le_one mem pl3e 0
    (((1 <<< NUM_PL2_INDEX_BITS) - 1) &&& (la >>> PL2_INDEX_START)) 3 acc 0
  have h2 := walk_reads_le_one mem
    (walkOneLevel mem pl3e 0
      (((1 <<< NUM_PL2_INDEX_BITS) - 1) &&& (la >>> PL2_INDEX_START)) 3 acc 0).nextEntry
    0 (((1 <<< NUM_PL1_INDEX_BITS) - 1) &&& (la >>> PL1_INDEX_START)) 2 acc 0
  have h1 := walk_reads_le_one mem
    (walkOneLevel mem
      (walkOneLevel mem pl3e 0
        (((1 <<< NUM_PL2_INDEX_BITS) - 1) &&& (la >>> PL2_INDEX_START)) 3 acc
        0).nextEntry
      0 (((1 <<< NUM_PL1_INDEX_BITS) - 1) &&& (la >>> PL1_INDEX_START)) 2 acc
      0).nextEntry
    0 (((1 <<< NUM_PAGE_INDEX_BITS) - 1) &&& la) 1 acc 0
  split_ifs <;> simp only [List.length_append] <;> omega

/-- The reads of one translation, exactly: the walk proceeds from level 3 to
level 2 to level 1 as long as the entry it meets is present and non-leaf, and
each such entry causes one read, at the slot it selects. -/
theorem linearToPhys_reads_exact (mem : Nat → Nat) (pl3e la : Nat) (acc : access)
    (pa pl2e pl1e : Nat) (hla : la < 2 ^ 32)
    (h2 : pl2e = mem ((pl3e &&& 0xFFFFF000) + 4 * (la >>> 22)))
    (h1 : pl1e = mem ((pl2e &&& 0xFFFFF000) + 4 * ((la >>> 12) &&& 0x3FF))) :
    (linearToPhys mem pl3e la acc pa).reads
      = if pl3e.testBit 0 = true ∧ pl3e.testBit 4 = false then
          ((pl3e &&& 0xFFFFF000) + 4 * (la >>> 22)) ::
            (if pl2e.testBit 0 = true ∧ pl2e.testBit 4 = false then
              ((pl2e &&& 0xFFFFF000) + 4 * ((la >>> 12) &&& 0x3FF)) ::
                (if pl1e.testBit 0 = true ∧ pl1e.testBit 4 = false then
                  [((pl1e &&& 0xFFFFF000) + 4 * (la &&& 0xFFF)) % 2 ^ 32]
                else [])
            else [])
        else [] := by
  rcases linearToPhys_paths mem pl3e la acc pa pl2e pl1e hla h2 h1 with
    ⟨a, h⟩ | ⟨a, b, c, h⟩ | ⟨a, b, c, h⟩ | ⟨a, b, c, h⟩ | ⟨a, b, c, d, e, h⟩
    | ⟨a, b, c, d, e, h⟩ | ⟨a, b, c, d, e, h⟩ | ⟨a, b, c, d, e, f, g, h⟩
    | ⟨a, b, c, d, e, f, g, h⟩ | ⟨a, b, c, d, e, f, g, h⟩ | ⟨a, b, c, d, e, f, g, h⟩ <;>
  rw [h] <;> simp_all

/-- C14 (amended): one call of `linearToPhys` passes at most three addresses
to `readPhys`, exactly one for each present non-leaf entry that the walk
meets at levels 3, 2 and 1. For a 32-bit linear address the list of reads is:
nothing when `pl3e` is absent or a leaf; otherwise the root-table slot,
followed, when the word `pl2e` read there is present and non-leaf, by the
level-2 slot, followed, when the word `pl1e` read there is present and
non-leaf, by the slot `(pl1e & 0xFFFFF000) + 4*(linearAddr & 0xFFF)` modulo
`2^32`. Each walker call reads once when its entry is present and non-leaf and
not at all otherwise. Memory is an argument that is only read: no result of
the call carries a changed memory. -/
theorem linearToPhys_reads_bound (mem : Nat → Nat) (pl3e linearAddr : Nat) (acc : access)
    (physAddr : Nat) :
    (linearToPhys mem pl3e linearAddr acc physAddr).reads.length ≤ 3
      ∧ (∀ (entry nextEntry index level : Nat) (flag : Int),
          (walkOneLevel mem entry nextEntry index level acc flag).reads.length
            = if entry.testBit 0 = true ∧ entry.testBit 4 = false then 1 else 0)
      ∧ (∀ pl2e pl1e : Nat, linearAddr < 2 ^ 32 →
          pl2e = mem ((pl3e &&& 0xFFFFF000) + 4 * (linearAddr >>> 22)) →
          pl1e = mem ((pl2e &&& 0xFFFFF000) + 4 * ((linearAddr >>> 12) &&& 0x3FF)) →
          (linearToPhys mem pl3e linearAddr acc physAddr).reads
              = (if pl3e.testBit 0 = true ∧ pl3e.testBit 4 = false then
                  ((pl3e &&& 0xFFFFF000) + 4 * (linearAddr >>> 22)) ::
                    (if pl2e.testBit 0 = true ∧ pl2e.testBit 4 = false then
                      ((pl2e &&& 0xFFFFF000) + 4 * ((linearAddr >>> 12) &&& 0x3FF)) ::
                        (if pl1e.testBit 0 = true ∧ pl1e.testBit 4 = false then
                          [((pl1e &&& 0xFFFFF000) + 4 * (linearAddr &&& 0xFFF)) % 2 ^ 32]
                        else [])
                    else [])
                else [])
            ∧ (linearToPhys mem pl3e linearAddr acc physAddr).reads.length
              = (if pl3e.testBit 0 = true ∧ pl3e.testBit 4 = false then
                  1 + (if pl2e.testBit 0 = true ∧ pl2e.testBit 4 = false then
                    1 + (if pl1e.testBit 0 = true ∧ pl1e.testBit 4 = false then 1 else 0)
                  else 0)
                else 0)) := by
  refine ⟨linearToPhys_reads_le_three mem pl3e linearAddr acc physAddr,
    fun entry nextEntry index level flag =>
      walk_reads_length mem entry nextEntry index level acc flag, ?_⟩
  intro pl2e pl1e hla h2 h1
  have hex := linearToPhys_reads_exact mem pl3e linearAddr acc physAddr pl2e pl1e hla h2 h1
  refine ⟨hex, ?_⟩
  rw [hex]
  split_ifs <;> simp

theorem linearToPhys_reads_bound_witness :
    (linearToPhys (fun a => if a = 0x200C then 0x3007 else if a = 0x3008 then 0x5017 else 0)
        0x2007 0x00C02004 access.ACCESS_READ 0).reads
        = (if (0x2007 : Nat).testBit 0 = true ∧ (0x2007 : Nat).testBit 4 = false then
            ((0x2007 &&& 0xFFFFF000) + 4 * (0x00C02004 >>> 22)) ::
              (if (0x3007 : Nat).testBit 0 = true ∧ (0x3007 : Nat).testBit 4 = false then
                ((0x3007 &&& 0xFFFFF000) + 4 * ((0x00C02004 >>> 12) &&& 0x3FF)) ::
                  (if (0x5017 : Nat).testBit 0 = true ∧ (0x5017 : Nat).testBit 4 = false then
                    [((0x5017 &&& 0xFFFFF000) + 4 * (0x00C02004 &&& 0xFFF)) % 2 ^ 32]
                  else [])
              else [])
          else [])
      ∧ (linearToPhys (fun a => if a = 0x200C then 0x3007 else if a = 0x3008 then 0x5017 else 0)
          0x2007 0x00C02004 access.ACCESS_READ 0).reads.length
        = (if (0x2007 : Nat).testBit 0 = true ∧ (0x2007 : Nat).testBit 4 = false then
            1 + (if (0x3007 : Nat).testBit 0 = true ∧ (0x3007 : Nat).testBit 4 = false then
              1 + (if (0x5017 : Nat).testBit 0 = true ∧ (0x5017 : Nat).testBit 4 = false
                then 1 else 0)
            else 0)
          else 0) :=
  (linearToPhys_reads_bound
    (fun a => if a = 0x200C then 0x3007 else if a = 0x3008 then 0x5017 else 0)
    0x2007 0x00C02004 access.ACCESS_READ 0).2.2 0x3007 0x5017 (by decide) (by decide)
    (by decide)

/-- C15: no partial result on fault. Whenever `linearToPhys` returns a fault
other than `FAULT_NONE`, the final content of `*physAddr` is its initial
content `v`. -/
theorem linearToPhys_fault_keeps_physAddr (mem : Nat → Nat) (pl3e linearAddr : Nat)
    (acc : access) (v : Nat)
    (hf : (linearToPhys mem pl3e linearAddr acc v).ret ≠ fault.FAULT_NONE) :
    (linearToPhys mem pl3e linearAddr acc v).physAddr = v := by
  simp only [linearToPhys] at hf ⊢
  split_ifs at hf ⊢ <;> first | rfl | exact absurd rfl hf

theorem linearToPhys_fault_keeps_physAddr_witness :
    (linearToPhys (fun _ => 0x00001011) 0xF 0x00C02004 access.ACCESS_READ 77).physAddr = 77 :=
  linearToPhys_fault_keeps_physAddr (fun _ => 0x00001011) 0xF 0x00C02004 access.ACCESS_READ 77
    (by decide)

/-! ## Dependence on memory -/

/-- The level-1 step gives the same result under two memories that agree on
the one address a non-leaf entry makes it read. -/
theorem walk_level1_congr (m1 m2 : Nat → Nat) (pl1e la : Nat) (acc : access)
    (h3 : m1 (((pl1e &&& 0xFFFFF000) + 4 * (la &&& 0xFFF)) % 2 ^ 32)
      = m2 (((pl1e &&& 0xFFFFF000) + 4 * (la &&& 0xFFF)) % 2 ^ 32)) :
    walkOneLevel m1 pl1e 0 (la &&& 0xFFF) 1 acc 0
      = walkOneLevel m2 pl1e 0 (la &&& 0xFFF) 1 acc 0 := by
  cases hp1 : pl1e.testBit 0
  · rw [walk_notPresent m1 pl1e _ _ _ _ _ hp1, walk_notPresent m2 pl1e _ _ _ _ _ hp1]
  cases hl1 : pl1e.testBit 4
  · rw [walk_nonLeaf m1 pl1e _ _ _ _ _ hp1 hl1, walk_nonLeaf m2 pl1e _ _ _ _ _ hp1 hl1,
      last_addr, h3]
  · rw [walk_leaf1 m1 pl1e _ _ _ _ hp1 hl1, walk_leaf1 m2 pl1e _ _ _ _ hp1 hl1]

/-- Two memories that agree on the three table slots of a walk give the same
result of the translator. -/
theorem linearToPhys_congr (m1 m2 : Nat → Nat) (pl3e la : Nat) (acc : access)
    (pa : Nat) (hla : la < 2 ^ 32)
    (h1 : m1 ((pl3e &&& 0xFFFFF000) + 4 * (la >>> 22))
      = m2 ((pl3e &&& 0xFFFFF000) + 4 * (la >>> 22)))
    (h2 : m1 ((m1 ((pl3e &&& 0xFFFFF000) + 4 * (la >>> 22)) &&& 0xFFFFF000)
          + 4 * ((la >>> 12) &&& 0x3FF))
      = m2 ((m1 ((pl3e &&& 0xFFFFF000) + 4 * (la >>> 22)) &&& 0xFFFFF000)
          + 4 * ((la >>> 12) &&& 0x3FF)))
    (h3 : m1 (((m1 ((m1 ((pl3e &&& 0xFFFFF000) + 4 * (la >>> 22)) &&& 0xFFFFF000)
            + 4 * ((la >>> 12) &&& 0x3FF)) &&& 0xFFFFF000) + 4 * (la &&& 0xFFF)) % 2 ^ 32)
      = m2 (((m1 ((m1 ((pl3e &&& 0xFFFFF000) + 4 * (la >>> 22)) &&& 0xFFFFF000)
            + 4 * ((la >>> 12) &&& 0x3FF)) &&& 0xFFFFF000) + 4 * (la &&& 0xFFF)) % 2 ^ 32)) :
    linearToPhys m1 pl3e la acc pa = linearToPhys m2 pl3e la acc pa := by
  cases hp3 : pl3e.testBit 0
  · rw [linearToPhys_root_notPresent m1 pl3e la acc pa hp3,
      linearToPhys_root_notPresent m2 pl3e la acc pa hp3]
  cases hl3 : pl3e.testBit 4
  swap
  · rw [linearToPhys_root_leaf m1 pl3e la acc pa hp3 hl3,
      linearToPhys_root_leaf m2 pl3e la acc pa hp3 hl3]
  cases hp2 : (m1 ((pl3e &&& 0xFFFFF000) + 4 * (la >>> 22))).testBit 0
  · rw [linearToPhys_mid_notPresent m1 pl3e la acc pa hla hp3 hl3 hp2,
      linearToPhys_mid_notPresent m2 pl3e la acc pa hla hp3 hl3 (h1 ▸ hp2)]
  cases hl2 : (m1 ((pl3e &&& 0xFFFFF000) + 4 * (la >>> 22))).testBit 4
  swap
  · rw [linearToPhys_mid_leaf m1 pl3e la acc pa hla hp3 hl3 hp2 hl2,
      linearToPhys_mid_leaf m2 pl3e la acc pa hla hp3 hl3 (h1 ▸ hp2) (h1 ▸ hl2), ← h1]
  rw [linearToPhys_level1 m1 pl3e la acc pa _ _ hla rfl rfl hp3 hl3 hp2 hl2,
    linearToPhys_level1 m2 pl3e la acc pa _ _ hla h1 h2 hp3 hl3 hp2 hl2,
    walk_level1_congr m1 m2 _ la acc h3]

/-- C16: translation is a function of its inputs and of the memory words it
reads. For a 32-bit linear address and two memories `m1`, `m2` that agree on
`a1 = (pl3e & 0xFFFFF000) + 4*(linearAddr >> 22)`,
`a2 = (m1(a1) & 0xFFFFF000) + 4*((linearAddr >> 12) & 0x3FF)` and
`a3 = (m1(a2) & 0xFFFFF000) + 4*(linearAddr & 0xFFF)`, the last one taken as a
32-bit address (modulo `2^32`), `linearToPhys` returns the same fault and the
same physical address and issues the same reads under `m1` and `m2`. The
translator is a function, so equal inputs and an equal memory give equal
results. -/
theorem linearToPhys_memory_agreement (m1 m2 : Nat → Nat) (pl3e linearAddr : Nat)
    (acc : access) (physAddr a1 a2 a3 : Nat) (hla : linearAddr < 2 ^ 32)
    (ha1 : a1 = (pl3e &&& 0xFFFFF000) + 4 * (linearAddr >>> 22))
    (ha2 : a2 = (m1 a1 &&& 0xFFFFF000) + 4 * ((linearAddr >>> 12) &&& 0x3FF))
    (ha3 : a3 = ((m1 a2 &&& 0xFFFFF000) + 4 * (linearAddr &&& 0xFFF)) % 2 ^ 32)
    (h1 : m1 a1 = m2 a1) (h2 : m1 a2 = m2 a2) (h3 : m1 a3 = m2 a3) :
    (linearToPhys m1 pl3e linearAddr acc physAddr).ret
        = (linearToPhys m2 pl3e linearAddr acc physAddr).ret
      ∧ (linearToPhys m1 pl3e linearAddr acc physAddr).physAddr
        = (linearToPhys m2 pl3e linearAddr acc physAddr).physAddr
      ∧ (linearToPhys m1 pl3e linearAddr acc physAddr).reads
        = (linearToPhys m2 pl3e linearAddr acc physAddr).reads := by
  subst ha1 ha2 ha3
  rw [linearToPhys_congr m1 m2 pl3e linearAddr acc physAddr hla h1 h2 h3]
  exact ⟨rfl, rfl, rfl⟩

theorem linearToPhys_memory_agreement_witness :
    (linearToPhys
        (fun a => if a = 8 then 0x2007 else if a = 0x200C then 0x5007
          else if a = 0x5010 then 0xABCD else 0)
        0xF 0x00803004 access.ACCESS_READ 0).ret
        = (linearToPhys
            (fun a => if a = 8 then 0x2007 else if a = 0x200C then 0x5007
              else if a = 0x5010 then 0xABCD else 0xFFFFFFFF)
            0xF 0x00803004 access.ACCESS_READ 0).ret
      ∧ (linearToPhys
          (fun a => if a = 8 then 0x2007 else if a = 0x200C then 0x5007
            else if a = 0x5010 then 0xABCD else 0)
          0xF 0x00803004 access.ACCESS_READ 0).physAddr
        = (linearToPhys
            (fun a => if a = 8 then 0x2007 else if a = 0x200C then 0x5007
              else if a = 0x5010 then 0xABCD else 0xFFFFFFFF)
            0xF 0x00803004 access.ACCESS_READ 0).physAddr
      ∧ (linearToPhys
          (fun a => if a = 8 then 0x2007 else if a = 0x200C then 0x5007
            else if a = 0x5010 then 0xABCD else 0)
          0xF 0x00803004 access.ACCESS_READ 0).reads
        = (linearToPhys
            (fun a => if a = 8 then 0x2007 else if a = 0x200C then 0x5007
              else if a = 0x5010 then 0xABCD else 0xFFFFFFFF)
            0xF 0x00803004 access.ACCESS_READ 0).reads :=
  linearToPhys_memory_agreement
    (fun a => if a = 8 then 0x2007 else if a = 0x200C then 0x5007
      else if a = 0x5010 then 0xABCD else 0)
    (fun a => if a = 8 then 0x2007 else if a = 0x200C then 0x5007
      else if a = 0x5010 then 0xABCD else 0xFFFFFFFF)
    0xF 0x00803004 access.ACCESS_READ 0 8 0x200C 0x5010 (by decide) (by decide) (by decide)
    (by decide) (by decide) (by decide) (by decide)

/-! ## Malformed entries -/

/-- C17: exact characterisation of Malformed. For a 32-bit linear address,
with `pl2e` the word at the root-table slot, `linearToPhys` returns
`FAULT_MALFORMED` exactly when (a) `pl3e` has bits 0 and 4 set and
`pl3e >> 12` is non-zero, or (b) `pl3e` has bit 0 set and bit 4 clear and
`pl2e` has bits 0 and 4 set and `pl2e & 0x003FF000` is non-zero. The walker
never returns `FAULT_MALFORMED` at level 1, and an absent `pl3e` or `pl2e`
gives `FAULT_NOT_PRESENT` whatever its other bits are. -/
theorem linearToPhys_malformed_iff (mem : Nat → Nat) (pl3e linearAddr : Nat) (acc : access)
    (physAddr pl2e : Nat) (hla : linearAddr < 2 ^ 32)
    (h2 : pl2e = mem ((pl3e &&& 0xFFFFF000) + 4 * (linearAddr >>> 22))) :
    ((linearToPhys mem pl3e linearAddr acc physAddr).ret = fault.FAULT_MALFORMED
        ↔ (pl3e.testBit 0 = true ∧ pl3e.testBit 4 = true ∧ pl3e >>> 12 ≠ 0)
          ∨ (pl3e.testBit 0 = true ∧ pl3e.testBit 4 = false ∧ pl2e.testBit 0 = true
              ∧ pl2e.testBit 4 = true ∧ pl2e &&& 0x003FF000 ≠ 0))
      ∧ (∀ (entry nextEntry index : Nat) (flag : Int),
          (walkOneLevel mem entry nextEntry index 1 acc flag).ret ≠ fault.FAULT_MALFORMED)
      ∧ (pl3e.testBit 0 = false →
          (linearToPhys mem pl3e linearAddr acc physAddr).ret = fault.FAULT_NOT_PRESENT)
      ∧ (pl3e.testBit 0 = true → pl3e.testBit 4 = false → pl2e.testBit 0 = false →
          (linearToPhys mem pl3e linearAddr acc physAddr).ret = fault.FAULT_NOT_PRESENT) := by
  refine ⟨?_, ?_, ?_, ?_⟩
  · rcases linearToPhys_paths mem pl3e linearAddr acc physAddr pl2e _ hla h2 rfl with
      ⟨a, h⟩ | ⟨a, b, c, h⟩ | ⟨a, b, c, h⟩ | ⟨a, b, c, h⟩ | ⟨a, b, c, d, e, h⟩
      | ⟨a, b, c, d, e, h⟩ | ⟨a, b, c, d, e, h⟩ | ⟨a, b, c, d, e, f, g, h⟩
      | ⟨a, b, c, d, e, f, g, h⟩ | ⟨a, b, c, d, e, f, g, h⟩ | ⟨a, b, c, d, e, f, g, h⟩ <;>
    rw [h] <;> simp_all
  · intro entry nextEntry index flag
    rw [walk_ret_eq]
    split_ifs <;> simp_all
  · intro hp3
    rw [linearToPhys_root_notPresent mem pl3e linearAddr acc physAddr hp3]
  · intro hp3 hl3 hp2
    rw [linearToPhys_mid_notPresent mem pl3e linearAddr acc physAddr hla hp3 hl3 (h2 ▸ hp2)]

theorem linearToPhys_malformed_iff_witness :
    (linearToPhys (fun _ => 0x00001011) 0xF 0x00C02004 access.ACCESS_READ 0).ret
      = fault.FAULT_MALFORMED :=
  (linearToPhys_malformed_iff (fun _ => 0x00001011) 0xF 0x00C02004 access.ACCESS_READ 0
    0x00001011 (by decide) (by decide)).1.2
    (Or.inr ⟨by decide, by decide, by decide, by decide, by decide⟩)

/-! ## A non-leaf entry at level 1 -/

/-- C18: non-leaf level-1 entry. For a 32-bit linear address, when `pl3e`,
`pl2e` and `pl1e` (the entries of the walk) are all present, non-leaf and
carry the permission bit of `acc`, `linearToPhys` returns `FAULT_NONE`, reads
memory a third time at `(pl1e & 0xFFFFF000) + 4*(linearAddr & 0xFFF)` modulo
`2^32` and stores the word read there as the physical address. For some such
input that third address lies outside the frame
`[pl1e & 0xFFFFF000, (pl1e & 0xFFFFF000) + 0xFFF]`, the page index being at
least 1024. -/
theorem linearToPhys_non_leaf_level1 :
    (∀ (mem : Nat → Nat) (pl3e linearAddr : Nat) (acc : access) (physAddr pl2e pl1e : Nat),
        linearAddr < 2 ^ 32 →
        pl2e = mem ((pl3e &&& 0xFFFFF000) + 4 * (linearAddr >>> 22)) →
        pl1e = mem ((pl2e &&& 0xFFFFF000) + 4 * ((linearAddr >>> 12) &&& 0x3FF)) →
        pl3e.testBit 0 = true → pl3e.testBit 4 = false →
        pl2e.testBit 0 = true → pl2e.testBit 4 = false →
        pl1e.testBit 0 = true → pl1e.testBit 4 = false →
        pl3e.testBit acc.val = true → pl2e.testBit acc.val = true →
        pl1e.testBit acc.val = true →
        (linearToPhys mem pl3e linearAddr acc physAddr).ret = fault.FAULT_NONE
          ∧ (linearToPhys mem pl3e linearAddr acc physAddr).physAddr
              = mem (((pl1e &&& 0xFFFFF000) + 4 * (linearAddr &&& 0xFFF)) % 2 ^ 32)
          ∧ (linearToPhys mem pl3e linearAddr acc physAddr).reads
              = [(pl3e &&& 0xFFFFF000) + 4 * (linearAddr >>> 22),
                  (pl2e &&& 0xFFFFF000) + 4 * ((linearAddr >>> 12) &&& 0x3FF),
                  ((pl1e &&& 0xFFFFF000) + 4 * (linearAddr &&& 0xFFF)) % 2 ^ 32])
      ∧ (∃ (mem : Nat → Nat) (pl3e linearAddr : Nat) (acc : access) (pl2e pl1e : Nat),
          linearAddr < 2 ^ 32
            ∧ pl2e = mem ((pl3e &&& 0xFFFFF000) + 4 * (linearAddr >>> 22))
            ∧ pl1e = mem ((pl2e &&& 0xFFFFF000) + 4 * ((linearAddr >>> 12) &&& 0x3FF))
            ∧ pl3e.testBit 0 = true ∧ pl3e.testBit 4 = false
            ∧ pl2e.testBit 0 = true ∧ pl2e.testBit 4 = false
            ∧ pl1e.testBit 0 = true ∧ pl1e.testBit 4 = false
            ∧ pl3e.testBit acc.val = true ∧ pl2e.testBit acc.val = true
            ∧ pl1e.testBit acc.val = true
            ∧ 1024 ≤ linearAddr &&& 0xFFF
            ∧ (linearToPhys mem pl3e linearAddr acc 0).reads
                = [(pl3e &&& 0xFFFFF000) + 4 * (linearAddr >>> 22),
                    (pl2e &&& 0xFFFFF000) + 4 * ((linearAddr >>> 12) &&& 0x3FF),
                    ((pl1e &&& 0xFFFFF000) + 4 * (linearAddr &&& 0xFFF)) % 2 ^ 32]
            ∧ ¬ ((pl1e &&& 0xFFFFF000)
                  ≤ ((pl1e &&& 0xFFFFF000) + 4 * (linearAddr &&& 0xFFF)) % 2 ^ 32
                ∧ ((pl1e &&& 0xFFFFF000) + 4 * (linearAddr &&& 0xFFF)) % 2 ^ 32
                  ≤ (pl1e &&& 0xFFFFF000) + 0xFFF)) := by
  constructor
  · intro mem pl3e linearAddr acc physAddr pl2e pl1e hla h2 h1 hp3 hl3 hp2 hl2 hp1 hl1
      ha3 ha2 ha1
    rw [linearToPhys_level1 mem pl3e linearAddr acc physAddr pl2e pl1e hla h2 h1 hp3 hl3 hp2 hl2,
      walk_nonLeaf mem pl1e _ _ _ _ _ hp1 hl1, last_addr]
    simp [ha3, ha2, ha1]
  · exact ⟨fun a => if a = 0x2004 then 0x3007 else if a = 0x3008 then 0x5007 else 0,
      0x2007, 0x00402C00, access.ACCESS_WRITE, 0x3007, 0x5007,
      by decide, by decide, by decide, by decide, by decide, by decide, by decide, by decide,
      by decide, by decide, by decide, by decide, by decide, by decide, by decide⟩

theorem linearToPhys_non_leaf_level1_witness :
    (linearToPhys (fun a => if a = 0x2004 then 0x3007 else if a = 0x3008 then 0x5007 else 0x77)
        0x2007 0x00402C00 access.ACCESS_WRITE 0).ret = fault.FAULT_NONE
      ∧ (linearToPhys
          (fun a => if a = 0x2004 then 0x3007 else if a = 0x3008 then 0x5007 else 0x77)
          0x2007 0x00402C00 access.ACCESS_WRITE 0).physAddr
          = (fun a => if a = 0x2004 then 0x3007 else if a = 0x3008 then 0x5007 else 0x77)
              (((0x5007 &&& 0xFFFFF000) + 4 * (0x00402C00 &&& 0xFFF)) % 2 ^ 32)
      ∧ (linearToPhys
          (fun a => if a = 0x2004 then 0x3007 else if a = 0x3008 then 0x5007 else 0x77)
          0x2007 0x00402C00 access.ACCESS_WRITE 0).reads
          = [(0x2007 &&& 0xFFFFF000) + 4 * (0x00402C00 >>> 22),
              (0x3007 &&& 0xFFFFF000) + 4 * ((0x00402C00 >>> 12) &&& 0x3FF),
              ((0x5007 &&& 0xFFFFF000) + 4 * (0x00402C00 &&& 0xFFF)) % 2 ^ 32] :=
  linearToPhys_non_leaf_level1.1
    (fun a => if a = 0x2004 then 0x3007 else if a = 0x3008 then 0x5007 else 0x77)
    0x2007 0x00402C00 access.ACCESS_WRITE 0 0x3007 0x5007 (by decide) (by decide) (by decide)
    (by decide) (by decide) (by decide) (by decide) (by decide) (by decide) (by decide)
    (by decide) (by decide)

/-! ## Alignment of the table reads -/

/-- A table slot selected by a 10-bit index: aligned, inside the 4 KB table
frame, below `2^32`, and the sum is a bitwise or. -/
theorem table_slot (e idx : Nat) (hi : idx < 1024) :
    ((e &&& 0xFFFFF000) + 4 * idx) % 4 = 0
      ∧ (e &&& 0xFFFFF000) + 4 * idx < 2 ^ 32
      ∧ (e &&& 0xFFFFF000) ≤ (e &&& 0xFFFFF000) + 4 * idx
      ∧ (e &&& 0xFFFFF000) + 4 * idx ≤ (e &&& 0xFFFFF000) + 0xFFC
      ∧ (e &&& 0xFFFFF000) + 4 * idx = (e &&& 0xFFFFF000) ||| (4 * idx) := by
  have hor : (e &&& 0xFFFFF000) + 4 * idx = (e &&& 0xFFFFF000) ||| (4 * idx) := by
    have hlt : 4 * idx < 2 ^ 12 := by omega
    have h := Nat.mul_add_lt_is_or hlt (e / 4096 % 1048576)
    rw [and_FFFFF000, Nat.mul_comm (e / 4096 % 1048576) 4096]
    exact h
  refine ⟨?_, ?_, ?_, ?_, hor⟩
  · rw [and_FFFFF000]; omega
  · rw [and_FFFFF000]; omega
  · omega
  · omega

theorem last_slot_aligned (e x : Nat) : (((e &&& 0xFFFFF000) + 4 * x) % 2 ^ 32) % 4 = 0 := by
  rw [and_FFFFF000]; omega

/-- The reads of one translation are an initial part of the three table slots
of the walk. -/
theorem linearToPhys_reads_cases (mem : Nat → Nat) (pl3e la : Nat) (acc : access)
    (pa pl2e pl1e : Nat) (hla : la < 2 ^ 32)
    (h2 : pl2e = mem ((pl3e &&& 0xFFFFF000) + 4 * (la >>> 22)))
    (h1 : pl1e = mem ((pl2e &&& 0xFFFFF000) + 4 * ((la >>> 12) &&& 0x3FF))) :
    (linearToPhys mem pl3e la acc pa).reads = []
      ∨ (linearToPhys mem pl3e la acc pa).reads = [(pl3e &&& 0xFFFFF000) + 4 * (la >>> 22)]
      ∨ (linearToPhys mem pl3e la acc pa).reads
          = [(pl3e &&& 0xFFFFF000) + 4 * (la >>> 22),
              (pl2e &&& 0xFFFFF000) + 4 * ((la >>> 12) &&& 0x3FF)]
      ∨ (linearToPhys mem pl3e la acc pa).reads
          = [(pl3e &&& 0xFFFFF000) + 4 * (la >>> 22),
              (pl2e &&& 0xFFFFF000) + 4 * ((la >>> 12) &&& 0x3FF),
              ((pl1e &&& 0xFFFFF000) + 4 * (la &&& 0xFFF)) % 2 ^ 32] := by
  rcases linearToPhys_paths mem pl3e la acc pa pl2e pl1e hla h2 h1 with
    ⟨_, h⟩ | ⟨_, _, _, h⟩ | ⟨_, _, _, h⟩ | ⟨_, _, _, h⟩ | ⟨_, _, _, _, _, h⟩
    | ⟨_, _, _, _, _, h⟩ | ⟨_, _, _, _, _, h⟩ | ⟨_, _, _, _, _, _, _, h⟩
    | ⟨_, _, _, _, _, _, _, h⟩ | ⟨_, _, _, _, _, _, _, h⟩ | ⟨_, _, _, _, _, _, _, h⟩ <;>
  rw [h] <;> simp

/-- C19: table reads are aligned and stay inside the table frame. For a 32-bit
linear address, every address `linearToPhys` passes to `readPhys` is a
multiple of 4. The first read, issued at level 3, is at
`base + 4*(linearAddr >> 22)` with `base = pl3e & 0xFFFFF000`, and the second,
issued at level 2, at `base + 4*((linearAddr >> 12) & 0x3FF)` with
`base = pl2e & 0xFFFFF000`: the sum stays below `2^32`, lies between `base`
and `base + 0xFFC`, and equals `base | (4*index)`. -/
theorem linearToPhys_reads_aligned (mem : Nat → Nat) (pl3e linearAddr : Nat) (acc : access)
    (physAddr pl2e : Nat) (hla : linearAddr < 2 ^ 32)
    (h2 : pl2e = mem ((pl3e &&& 0xFFFFF000) + 4 * (linearAddr >>> 22))) :
    (∀ a ∈ (linearToPhys mem pl3e linearAddr acc physAddr).reads, a % 4 = 0)
      ∧ (∀ a, (linearToPhys mem pl3e linearAddr acc physAddr).reads[0]? = some a →
          a = (pl3e &&& 0xFFFFF000) + 4 * (linearAddr >>> 22)
            ∧ a < 2 ^ 32
            ∧ (pl3e &&& 0xFFFFF000) ≤ a ∧ a ≤ (pl3e &&& 0xFFFFF000) + 0xFFC
            ∧ a = (pl3e &&& 0xFFFFF000) ||| (4 * (linearAddr >>> 22)))
      ∧ (∀ a, (linearToPhys mem pl3e linearAddr acc physAddr).reads[1]? = some a →
          a = (pl2e &&& 0xFFFFF000) + 4 * ((linearAddr >>> 12) &&& 0x3FF)
            ∧ a < 2 ^ 32
            ∧ (pl2e &&& 0xFFFFF000) ≤ a ∧ a ≤ (pl2e &&& 0xFFFFF000) + 0xFFC
            ∧ a = (pl2e &&& 0xFFFFF000) ||| (4 * ((linearAddr >>> 12) &&& 0x3FF))) := by
  obtain ⟨s3a, s3b, s3c, s3d, s3e⟩ := table_slot pl3e (linearAddr >>> 22)
    (pl2_index_lt linearAddr hla)
  obtain ⟨s2a, s2b, s2c, s2d, s2e⟩ := table_slot pl2e ((linearAddr >>> 12) &&& 0x3FF)
    (pl1_index_lt linearAddr)
  have s1a := last_slot_aligned
    (mem ((pl2e &&& 0xFFFFF000) + 4 * ((linearAddr >>> 12) &&& 0x3FF))) (linearAddr &&& 0xFFF)
  rcases linearToPhys_reads_cases mem pl3e linearAddr acc physAddr pl2e _ hla h2 rfl with
    h | h | h | h
  · rw [h]
    refine ⟨?_, ?_, ?_⟩
    · intro a ha
      simp at ha
    · intro a ha
      simp at ha
    · intro a ha
      simp at ha
  · rw [h]
    refine ⟨?_, ?_, ?_⟩
    · intro a ha
      rw [List.mem_singleton] at ha
      rw [ha]; exact s3a
    · intro a ha
      have ha0 : (pl3e &&& 0xFFFFF000) + 4 * (linearAddr >>> 22) = a := by simpa using ha
      rw [← ha0]
      exact ⟨rfl, s3b, s3c, s3d, s3e⟩
    · intro a ha
      simp at ha
  · rw [h]
    refine ⟨?_, ?_, ?_⟩
    · intro a ha
      rcases List.mem_cons.1 ha with ha | ha
      · rw [ha]; exact s3a
      · rw [List.mem_singleton] at ha
        rw [ha]; exact s2a
    · intro a ha
      have ha0 : (pl3e &&& 0xFFFFF000) + 4 * (linearAddr >>> 22) = a := by simpa using ha
      rw [← ha0]
      exact ⟨rfl, s3b, s3c, s3d, s3e⟩
    · intro a ha
      have ha0 : (pl2e &&& 0xFFFFF000) + 4 * ((linearAddr >>> 12) &&& 0x3FF) = a := by
        simpa using ha
      rw [← ha0]
      exact ⟨rfl, s2b, s2c, s2d, s2e⟩
  · rw [h]
    refine ⟨?_, ?_, ?_⟩
    · intro a ha
      rcases List.mem_cons.1 ha with ha | ha
      · rw [ha]; exact s3a
      · rcases List.mem_cons.1 ha with ha | ha
        · rw [ha]; exact s2a
        · rw [List.mem_singleton] at ha
          rw [ha]; exact s1a
    · intro a ha
      have ha0 : (pl3e &&& 0xFFFFF000) + 4 * (linearAddr >>> 22) = a := by simpa using ha
      rw [← ha0]
      exact ⟨rfl, s3b, s3c, s3d, s3e⟩
    · intro a ha
      have ha0 : (pl2e &&& 0xFFFFF000) + 4 * ((linearAddr >>> 12) &&& 0x3FF) = a := by
        simpa using ha
      rw [← ha0]
      exact ⟨rfl, s2b, s2c, s2d, s2e⟩

theorem linearToPhys_reads_aligned_witness :
    (0x2004 : Nat) = (0x2007 &&& 0xFFFFF000) + 4 * (0x00402C00 >>> 22)
      ∧ (0x2004 : Nat) < 2 ^ 32
      ∧ (0x2007 &&& 0xFFFFF000) ≤ 0x2004 ∧ 0x2004 ≤ (0x2007 &&& 0xFFFFF000) + 0xFFC
      ∧ (0x2004 : Nat) = (0x2007 &&& 0xFFFFF000) ||| (4 * (0x00402C00 >>> 22)) :=
  (linearToPhys_reads_aligned
    (fun a => if a = 0x2004 then 0x3007 else if a = 0x3008 then 0x5007 else 0x77)
    0x2007 0x00402C00 access.ACCESS_WRITE 0 0x3007 (by decide) (by decide)).2.1 0x2004
    (by decide)

/-! ## The page offset -/

/-- The 4 MB assembly is a sum of a multiple of `2^22` and an offset below
`2^22`. -/
theorem large_page_sum (e la : Nat) :
    (e &&& 0xFFC00000) ||| (la &&& 0x003FFFFF)
      = e / 4194304 % 1024 * 4194304 + la % 4194304 := by
  have hlt : la % 4194304 < 2 ^ 22 := by omega
  have h := Nat.mul_add_lt_is_or hlt (e / 4194304 % 1024)
  rw [and_FFC00000, and_3FFFFF, Nat.mul_comm (e / 4194304 % 1024) 4194304]
  exact h.symm

/-- C20: page offset is preserved. For a 32-bit linear address and 32-bit
table words `pl2e`, `pl1e` (the entries of the walk), when `linearToPhys`
returns `FAULT_NONE` and one of `pl3e`, `pl2e`, `pl1e` is a leaf, the stored
address has the low 12 bits of `linearAddr`. When `pl1e` is the leaf (after
non-leaf `pl3e` and `pl2e`) its bits from 12 up are those of `pl1e`; when
`pl2e` is the leaf (after a non-leaf `pl3e`) its bits from 22 up are those of
`pl2e` and its low 22 bits those of `linearAddr`. -/
theorem linearToPhys_offset_preserved (mem : Nat → Nat) (pl3e linearAddr : Nat)
    (acc : access) (physAddr pl2e pl1e : Nat) (hla : linearAddr < 2 ^ 32)
    (h2 : pl2e = mem ((pl3e &&& 0xFFFFF000) + 4 * (linearAddr >>> 22)))
    (h1 : pl1e = mem ((pl2e &&& 0xFFFFF000) + 4 * ((linearAddr >>> 12) &&& 0x3FF)))
    (hb2 : pl2e < 2 ^ 32) (hb1 : pl1e < 2 ^ 32)
    (hok : (linearToPhys mem pl3e linearAddr acc physAddr).ret = fault.FAULT_NONE) :
    (pl3e.testBit 4 = true ∨ pl2e.testBit 4 = true ∨ pl1e.testBit 4 = true →
        (linearToPhys mem pl3e linearAddr acc physAddr).physAddr &&& 0xFFF
          = linearAddr &&& 0xFFF)
      ∧ (pl3e.testBit 4 = false → pl2e.testBit 4 = false → pl1e.testBit 4 = true →
          (linearToPhys mem pl3e linearAddr acc physAddr).physAddr >>> 12 = pl1e >>> 12)
      ∧ (pl3e.testBit 4 = false → pl2e.testBit 4 = true →
          (linearToPhys mem pl3e linearAddr acc physAddr).physAddr >>> 22 = pl2e >>> 22
            ∧ (linearToPhys mem pl3e linearAddr acc physAddr).physAddr &&& 0x003FFFFF
                = linearAddr &&& 0x003FFFFF) := by
  have e1 : ((pl1e &&& 0xFFFFF000) + (linearAddr &&& 0xFFF)) &&& 0xFFF
      = linearAddr &&& 0xFFF := by
    rw [and_FFF, and_FFF, and_FFFFF000]; omega
  have e2 : ((pl1e &&& 0xFFFFF000) + (linearAddr &&& 0xFFF)) >>> 12 = pl1e >>> 12 := by
    rw [and_FFF, and_FFFFF000]
    simp only [Nat.shiftRight_eq_div_pow]
    omega
  have e3 : ((pl2e &&& 0xFFC00000) ||| (linearAddr &&& 0x003FFFFF)) &&& 0xFFF
      = linearAddr &&& 0xFFF := by
    rw [large_page_sum, and_FFF, and_FFF]; omega
  have e4 : ((pl2e &&& 0xFFC00000) ||| (linearAddr &&& 0x003FFFFF)) >>> 22 = pl2e >>> 22 := by
    rw [large_page_sum]
    simp only [Nat.shiftRight_eq_div_pow]
    omega
  have e5 : ((pl2e &&& 0xFFC00000) ||| (linearAddr &&& 0x003FFFFF)) &&& 0x003FFFFF
      = linearAddr &&& 0x003FFFFF := by
    rw [large_page_sum, and_3FFFFF, and_3FFFFF]; omega
  rcases linearToPhys_paths mem pl3e linearAddr acc physAddr pl2e pl1e hla h2 h1 with
    ⟨a, h⟩ | ⟨a, b, c, h⟩ | ⟨a, b, c, h⟩ | ⟨a, b, c, h⟩ | ⟨a, b, c, d, e, h⟩
    | ⟨a, b, c, d, e, h⟩ | ⟨a, b, c, d, e, h⟩ | ⟨a, b, c, d, e, f, g, h⟩
    | ⟨a, b, c, d, e, f, g, h⟩ | ⟨a, b, c, d, e, f, g, h⟩ | ⟨a, b, c, d, e, f, g, h⟩ <;>
  rw [h] at hok ⊢ <;> simp_all

theorem linearToPhys_offset_preserved_witness :
    (linearToPhys (fun a => if a = 0x2004 then 0x3007 else if a = 0x3008 then 0xABCDE817 else 0)
        0x2007 0x00402C31 access.ACCESS_WRITE 0).physAddr >>> 12 = 0xABCDE817 >>> 12 :=
  (linearToPhys_offset_preserved
    (fun a => if a = 0x2004 then 0x3007 else if a = 0x3008 then 0xABCDE817 else 0)
    0x2007 0x00402C31 access.ACCESS_WRITE 0 0x3007 0xABCDE817 (by decide) (by decide)
    (by decide) (by decide) (by decide) (by decide)).2.1 (by decide) (by decide) (by decide)

end PageTable
